import Mathlib

/-!
# Verification of `eutrophy_sensitive_wbs` utility layer

Shallow embedding of `src/code/utils.py` (NIVANorge/eutrophy_sensitive_wbs).
Python floats are modelled as rationals (`ℚ`), pandas DataFrames as an ordered
column-name list together with a list of rows (each row a total function from
column name to an optional cell, `none` standing for NaN/null), and Python
exceptions as an explicit `PyErr` error type threaded through `Except`.
Network access and CSV files are modelled as explicit function parameters
supplying the would-be response, so that which calls are made is observable.
-/

/-- Python exceptions that the embedded code can raise. -/
inductive PyErr where
  | valueError
  | indexError
  | keyError
  | typeError
  | assertionError
  | fileNotFoundError
  | httpError (status : Nat)
  deriving DecidableEq, Repr

/-- A cell of a table: either a string or a numeric value (Python float as ℚ). -/
inductive Cell where
  | str (s : String)
  | num (q : ℚ)
  deriving DecidableEq, Repr

/-- A row of a table: a total map from column name to optional cell
(`none` models NaN / missing). -/
abbrev Row := String → Option Cell

/-- A pandas DataFrame: an ordered list of column names plus the rows.
Only entries at names listed in `cols` are meaningful; operations that
restrict columns mask the rows accordingly. -/
structure Df where
  cols : List String
  rows : List Row

/-- Restrict a row to a set of columns: entries outside the listed columns
read as missing (pandas column selection drops the data). -/
def maskRow (cols : List String) (r : Row) : Row :=
  fun c => if c ∈ cols then r c else none

/-- `df[req]`: column selection.  All requested columns must be present,
otherwise pandas raises a `KeyError`. -/
def selectCols (req : List String) (df : Df) : Except PyErr Df :=
  if ∀ c ∈ req, c ∈ df.cols then
    .ok ⟨req, df.rows.map (maskRow req)⟩
  else .error .keyError

/-- Update a single entry of a row. -/
def updateRow (r : Row) (name : String) (v : Option Cell) : Row :=
  fun c => if c = name then v else r c

/-- `df[name] = value-per-row`: column assignment.  Appends the column name
at the end when it is new, overwrites entries otherwise. -/
def setCol (df : Df) (name : String) (f : Row → Option Cell) : Df :=
  ⟨if name ∈ df.cols then df.cols else df.cols ++ [name],
   df.rows.map (fun r => updateRow r name (f r))⟩

/-- `pd.concat(dfs)`: raises `ValueError` on an empty list; otherwise the
columns are the union of the inputs' columns in order of first appearance and
the rows are appended in order, each masked to its own frame's columns
(entries for columns a frame lacks read as NaN). -/
def concatDf (dfs : List Df) : Except PyErr Df :=
  match dfs with
  | [] => .error .valueError
  | _ => .ok ⟨dfs.foldl (fun acc df => acc ++ df.cols.filter (fun c => c ∉ acc)) [],
              (dfs.map (fun df => df.rows.map (maskRow df.cols))).flatten⟩

/-- `lst[i]` on a Python list: `IndexError` out of range. -/
def pyIndex (l : List ℚ) (i : Nat) : Except PyErr ℚ :=
  match l.get? i with
  | some q => .ok q
  | none => .error .indexError

/-- Python's chained comparison `lo ≤ v < hi` where `lo` and `hi` are
(index) expressions evaluated left to right with short-circuiting: `hi` is
only evaluated when `lo ≤ v` holds. -/
def chainLeLt (lo : Except PyErr ℚ) (v : ℚ) (hi : Except PyErr ℚ) :
    Except PyErr Bool := do
  let a ← lo
  if a ≤ v then
    let b ← hi
    pure (decide (v < b))
  else
    pure false

/-- `get_wfd_class` (utils.py:81) after the boundary string has been split on
`";"` and every token parsed as a float: `boundaries` is the parsed list.
Mirrors the `if`/`elif` chain, including the evaluation order of the chained
comparisons (so an out-of-range boundary index raises `IndexError` only when
reached). -/
def get_wfd_class (boundaries : List ℚ) (value : ℚ) : Except PyErr String := do
  let b0 ← pyIndex boundaries 0
  if value < b0 then
    pure "High"
  else if ← chainLeLt (pyIndex boundaries 0) value (pyIndex boundaries 1) then
    pure "Good"
  else if ← chainLeLt (pyIndex boundaries 1) value (pyIndex boundaries 2) then
    pure "Moderate"
  else if ← chainLeLt (pyIndex boundaries 2) value (pyIndex boundaries 3) then
    pure "Poor"
  else
    pure "Bad"

/-- Modelled from the spec's words (§4.2), for comparison with the code:
the label determined by the half-open intervals
`v < b0 ↦ High`, `b0 ≤ v < b1 ↦ Good`, `b1 ≤ v < b2 ↦ Moderate`,
`b2 ≤ v < b3 ↦ Poor`, `v ≥ b3 ↦ Bad`. -/
def wfdSpecLabel (b0 b1 b2 b3 v : ℚ) : String :=
  if v < b0 then "High"
  else if v < b1 then "Good"
  else if v < b2 then "Moderate"
  else if v < b3 then "Poor"
  else "Bad"

/-- Quality rank of a class label: 0 is best (`High`), 4 is worst (`Bad`). -/
def classRank (s : String) : Nat :=
  if s = "High" then 0
  else if s = "Good" then 1
  else if s = "Moderate" then 2
  else if s = "Poor" then 3
  else 4

/-- On a four-element boundary list the classifier agrees with the interval
specification (shared helper). -/
theorem get_wfd_class_eq_spec (b0 b1 b2 b3 v : ℚ) :
    get_wfd_class [b0, b1, b2, b3] v = .ok (wfdSpecLabel b0 b1 b2 b3 v) := by
  simp only [get_wfd_class, wfdSpecLabel, pyIndex, chainLeLt, List.get?,
    Bind.bind, Except.bind, Pure.pure, Except.pure]
  by_cases h0 : v < b0
  · simp [h0]
  · have h0' : b0 ≤ v := le_of_not_lt h0
    by_cases h1 : v < b1
    · simp [h0, h0', h1]
    · have h1' : b1 ≤ v := le_of_not_lt h1
      by_cases h2 : v < b2
      · simp [h0, h0', h1, h1', h2]
      · have h2' : b2 ≤ v := le_of_not_lt h2
        by_cases h3 : v < b3
        · simp [h0, h0', h1, h1', h2, h2', h3]
        · simp [h0, h0', h1, h1', h2, h2', h3]

example : get_wfd_class [475, 650, 1075, 1775] 300 = .ok "High" := by rfl
example : get_wfd_class [475, 650, 1075, 1775] 475 = .ok "Good" := by rfl
example : get_wfd_class [475, 650, 1075, 1775] 2000 = .ok "Bad" := by rfl
example : get_wfd_class [1, 2, 3, 4, 5] 0 = .ok "High" := by rfl
example : get_wfd_class [] 0 = .error .indexError := by rfl
example : get_wfd_class [1] 5 = .error .indexError := by rfl

/-- Decidable equality for `Except` results, used to evaluate concrete runs. -/
instance {ε α : Type} [DecidableEq ε] [DecidableEq α] : DecidableEq (Except ε α) :=
  fun a b =>
    match a, b with
    | .ok x, .ok y => if h : x = y then .isTrue (by rw [h]) else .isFalse (by simp [h])
    | .error x, .error y => if h : x = y then .isTrue (by rw [h]) else .isFalse (by simp [h])
    | .ok _, .error _ => .isFalse (by simp)
    | .error _, .ok _ => .isFalse (by simp)

/-- C1: for every boundary string parsing to four ascending numbers
`b0 < b1 < b2 < b3` and every value, `get_wfd_class` returns exactly the label
determined by the half-open intervals: `High` if `v < b0`, `Good` if
`b0 ≤ v < b1`, `Moderate` if `b1 ≤ v < b2`, `Poor` if `b2 ≤ v < b3`, and
`Bad` if `v ≥ b3`. -/
theorem wfd_class_matches_interval_spec (b0 b1 b2 b3 v : ℚ)
    (h01 : b0 < b1) (h12 : b1 < b2) (h23 : b2 < b3) :
    get_wfd_class [b0, b1, b2, b3] v = .ok (wfdSpecLabel b0 b1 b2 b3 v) ∧
    (v < b0 → wfdSpecLabel b0 b1 b2 b3 v = "High") ∧
    (b0 ≤ v → v < b1 → wfdSpecLabel b0 b1 b2 b3 v = "Good") ∧
    (b1 ≤ v → v < b2 → wfdSpecLabel b0 b1 b2 b3 v = "Moderate") ∧
    (b2 ≤ v → v < b3 → wfdSpecLabel b0 b1 b2 b3 v = "Poor") ∧
    (b3 ≤ v → wfdSpecLabel b0 b1 b2 b3 v = "Bad") := by
  refine ⟨get_wfd_class_eq_spec b0 b1 b2 b3 v, ?_, ?_, ?_, ?_, ?_⟩
  · intro h
    simp [wfdSpecLabel, h]
  · intro hle hlt
    simp [wfdSpecLabel, not_lt.2 hle, hlt]
  · intro hle hlt
    have k0 : ¬ v < b0 := not_lt.2 (le_trans h01.le hle)
    simp [wfdSpecLabel, k0, not_lt.2 hle, hlt]
  · intro hle hlt
    have k0 : ¬ v < b0 := not_lt.2 (le_trans (h01.trans h12).le hle)
    have k1 : ¬ v < b1 := not_lt.2 (le_trans h12.le hle)
    simp [wfdSpecLabel, k0, k1, not_lt.2 hle, hlt]
  · intro hle
    have k0 : ¬ v < b0 := not_lt.2 (le_trans ((h01.trans h12).trans h23).le hle)
    have k1 : ¬ v < b1 := not_lt.2 (le_trans (h12.trans h23).le hle)
    have k2 : ¬ v < b2 := not_lt.2 (le_trans h23.le hle)
    simp [wfdSpecLabel, k0, k1, k2, not_lt.2 hle]

/-- Witness for C1 at the spec's example boundaries `475;650;1075;1775`. -/
theorem wfd_class_matches_interval_spec_witness :
    ((475 : ℚ) < 650 ∧ (650 : ℚ) < 1075 ∧ (1075 : ℚ) < 1775) ∧
    (get_wfd_class [475, 650, 1075, 1775] 475 =
        .ok (wfdSpecLabel 475 650 1075 1775 475) ∧
      ((475 : ℚ) < 475 → wfdSpecLabel 475 650 1075 1775 475 = "High") ∧
      ((475 : ℚ) ≤ 475 → (475 : ℚ) < 650 → wfdSpecLabel 475 650 1075 1775 475 = "Good") ∧
      ((650 : ℚ) ≤ 475 → (475 : ℚ) < 1075 → wfdSpecLabel 475 650 1075 1775 475 = "Moderate") ∧
      ((1075 : ℚ) ≤ 475 → (475 : ℚ) < 1775 → wfdSpecLabel 475 650 1075 1775 475 = "Poor") ∧
      ((1775 : ℚ) ≤ 475 → wfdSpecLabel 475 650 1075 1775 475 = "Bad")) :=
  ⟨⟨by decide, by decide, by decide⟩,
   wfd_class_matches_interval_spec 475 650 1075 1775 475
     (by decide) (by decide) (by decide)⟩

/-- C9: with four strictly ascending boundaries the classifier always returns
exactly one of the five labels, and the returned class is monotonic
non-increasing in quality as the value increases: `v1 ≤ v2` implies the label
at `v1` ranks at least as high in quality (`classRank` at most as large) as
the label at `v2`. -/
theorem wfd_class_total_and_monotone (b0 b1 b2 b3 v1 v2 : ℚ)
    (h01 : b0 < b1) (h12 : b1 < b2) (h23 : b2 < b3) (hv : v1 ≤ v2) :
    (∃ s1, get_wfd_class [b0, b1, b2, b3] v1 = .ok s1 ∧
        s1 ∈ ["High", "Good", "Moderate", "Poor", "Bad"]) ∧
    (∃ s2, get_wfd_class [b0, b1, b2, b3] v2 = .ok s2 ∧
        s2 ∈ ["High", "Good", "Moderate", "Poor", "Bad"]) ∧
    (∀ s1 s2, get_wfd_class [b0, b1, b2, b3] v1 = .ok s1 →
        get_wfd_class [b0, b1, b2, b3] v2 = .ok s2 →
        classRank s1 ≤ classRank s2) := by
  have e1 := get_wfd_class_eq_spec b0 b1 b2 b3 v1
  have e2 := get_wfd_class_eq_spec b0 b1 b2 b3 v2
  refine ⟨⟨wfdSpecLabel b0 b1 b2 b3 v1, e1, ?_⟩,
          ⟨wfdSpecLabel b0 b1 b2 b3 v2, e2, ?_⟩, ?_⟩
  · unfold wfdSpecLabel
    split_ifs <;> simp
  · unfold wfdSpecLabel
    split_ifs <;> simp
  · intro s1 s2 k1 k2
    rw [e1] at k1
    rw [e2] at k2
    injection k1 with k1
    injection k2 with k2
    subst k1
    subst k2
    unfold wfdSpecLabel
    split_ifs <;> simp [classRank] <;> linarith

/-- Witness for C9 at boundaries `475;650;1075;1775`, values `500 ≤ 2000`. -/
theorem wfd_class_total_and_monotone_witness :
    ((475 : ℚ) < 650 ∧ (650 : ℚ) < 1075 ∧ (1075 : ℚ) < 1775 ∧ (500 : ℚ) ≤ 2000) ∧
    ((∃ s1, get_wfd_class [475, 650, 1075, 1775] 500 = .ok s1 ∧
        s1 ∈ ["High", "Good", "Moderate", "Poor", "Bad"]) ∧
     (∃ s2, get_wfd_class [475, 650, 1075, 1775] 2000 = .ok s2 ∧
        s2 ∈ ["High", "Good", "Moderate", "Poor", "Bad"]) ∧
     (∀ s1 s2, get_wfd_class [475, 650, 1075, 1775] 500 = .ok s1 →
        get_wfd_class [475, 650, 1075, 1775] 2000 = .ok s2 →
        classRank s1 ≤ classRank s2)) :=
  ⟨⟨by decide, by decide, by decide, by decide⟩,
   wfd_class_total_and_monotone 475 650 1075 1775 500 2000
     (by decide) (by decide) (by decide) (by decide)⟩

/-- C6 counterexample: the boundary list `1;2;3;4;5` splits into five numeric
tokens, yet classifying the value `0` does not raise `ValueError`
(InvalidArgument) — it succeeds, returning `High`. -/
theorem wfd_extra_tokens_no_invalid_argument :
    get_wfd_class [1, 2, 3, 4, 5] 0 ≠ .error .valueError := by
  decide

/-- C6 amended: `get_wfd_class` performs no token-count validation.  With more
than four numeric tokens it ignores the extras and returns exactly the label
computed from the first four; with fewer than four tokens it never raises
`ValueError` — it returns `High` whenever the value is below the first
boundary of a nonempty list, fails with `IndexError` on an empty boundary
list, and on a single-boundary list fails with `IndexError` exactly when the
value is at least that boundary. -/
theorem wfd_token_count_behavior :
    (∀ (b0 b1 b2 b3 : ℚ) (rest : List ℚ) (v : ℚ),
        get_wfd_class (b0 :: b1 :: b2 :: b3 :: rest) v =
          get_wfd_class [b0, b1, b2, b3] v) ∧
    (∀ v : ℚ, get_wfd_class [] v = .error .indexError) ∧
    (∀ (b0 : ℚ) (bs : List ℚ) (v : ℚ), v < b0 →
        get_wfd_class (b0 :: bs) v = .ok "High") ∧
    (∀ (b0 : ℚ) (v : ℚ), b0 ≤ v →
        get_wfd_class [b0] v = .error .indexError) := by
  refine ⟨?_, ?_, ?_, ?_⟩
  · intro b0 b1 b2 b3 rest v
    rfl
  · intro v
    rfl
  · intro b0 bs v h
    simp only [get_wfd_class, pyIndex, List.get?, Bind.bind, Except.bind]
    simp [h]
    rfl
  · intro b0 v h
    simp only [get_wfd_class, chainLeLt, pyIndex, List.get?, Bind.bind,
      Except.bind, Pure.pure, Except.pure]
    simp [not_lt.2 h, h]

/-- Witness for C6's amended statement at concrete inputs. -/
theorem wfd_token_count_behavior_witness :
    (get_wfd_class [1, 2, 3, 4, 5] 0 = get_wfd_class [1, 2, 3, 4] 0) ∧
    (get_wfd_class [] 0 = .error .indexError) ∧
    ((0 : ℚ) < 1 ∧ get_wfd_class [1] 0 = .ok "High") ∧
    ((1 : ℚ) ≤ 5 ∧ get_wfd_class [1] 5 = .error .indexError) :=
  ⟨wfd_token_count_behavior.1 1 2 3 4 [5] 0,
   wfd_token_count_behavior.2.1 0,
   ⟨by decide, wfd_token_count_behavior.2.2.1 1 [] 0 (by decide)⟩,
   ⟨by decide, wfd_token_count_behavior.2.2.2 1 5 (by decide)⟩⟩

/-- Python `range(a, b)` over integers. -/
def pyRange (a b : Int) : List Int :=
  (List.range (b - a).toNat).map (fun (i : Nat) => a + (i : Int))

/-- Python `s.endswith(patt)`, computed on the character lists. -/
def pyEndsWith (s patt : String) : Bool := patt.data.isSuffixOf s.data

/-- Auxiliary fuel-indexed loop for `pyReplace`: scan left to right, at each
position either consume a leftmost pattern occurrence and emit the
replacement, or keep the character.  The fuel (the string length at entry)
bounds the recursion and is never exhausted first. -/
def replCharsAux (patt repl : List Char) : Nat → List Char → List Char
  | _, [] => []
  | 0, l => l
  | fuel + 1, c :: rest =>
      if patt ≠ [] ∧ patt.isPrefixOf (c :: rest) then
        repl ++ replCharsAux patt repl fuel (rest.drop (patt.length - 1))
      else
        c :: replCharsAux patt repl fuel rest

/-- Python `s.replace(patt, repl)`: replace every leftmost non-overlapping
occurrence. -/
def pyReplace (s patt repl : String) : String :=
  ⟨replCharsAux patt.data repl.data s.data.length s.data⟩

/-- First underscore-delimited segment of a string, as in
`name.split("_")[0]`: the characters before the first underscore. -/
def headSeg (s : String) : String :=
  ⟨s.data.takeWhile (fun ch => ch ≠ '_')⟩

/-- Rows of `csv` whose `regine` entry equals the requested catchment id
(`df.query("regine == @reg_id")`). -/
def regineMatches (reg_id : String) (csv : Df) : List Row :=
  csv.rows.filter (fun r => r "regine" = some (.str reg_id))

/-- Number of rows matching the catchment id in a year's CSV. -/
def t2MatchCount (reg_id : String) (csv : Df) : Nat :=
  (regineMatches reg_id csv).length

/-- One iteration of the year loop in `get_teotil2_results_for_regine`
(utils.py:116-125): filter to the catchment id (`KeyError` when the CSV has no
`regine` column), record whether the warning fires, assign the `År` column and
select `regine`, `År` and the `accum_*` columns.  Returns the warning flag and
the yearly slice. -/
def t2ProcessYear (reg_id : String) (year : Int) (csv : Df) :
    Except PyErr (Bool × Df) :=
  if "regine" ∈ csv.cols then
    let matched := regineMatches reg_id csv
    let warn := matched.length == 0
    let df1 : Df := setCol ⟨csv.cols, matched⟩ "År" (fun _ => some (.num (year : ℚ)))
    let accums := df1.cols.filter (fun c => headSeg c == "accum")
    (selectCols (["regine", "År"] ++ accums) df1).map (fun df => (warn, df))
  else .error .keyError

/-- The year loop of `get_teotil2_results_for_regine`: accumulates the warned
years and the per-year slices, propagating any error.  `src` supplies the
per-year published CSV (the `pd.read_csv` of the fixed per-year URL). -/
def t2Loop (reg_id : String) (src : Int → Except PyErr Df) :
    List Int → Except PyErr (List Int × List Df)
  | [] => .ok ([], [])
  | y :: ys => do
      let csv ← src y
      let (warn, slice) ← t2ProcessYear reg_id y csv
      let (ws, dfs) ← t2Loop reg_id src ys
      pure ((if warn then [y] else []) ++ ws, slice :: dfs)

/-- `get_teotil2_results_for_regine` (utils.py:113): loop over
`range(st_yr, end_yr + 1)`, then `pd.concat` of the collected slices.
Returns the warned years together with the final table. -/
def get_teotil2_results_for_regine (st_yr end_yr : Int) (reg_id : String)
    (src : Int → Except PyErr Df) : Except PyErr (List Int × Df) := do
  let (ws, dfs) ← t2Loop reg_id src (pyRange st_yr (end_yr + 1))
  let df ← concatDf dfs
  pure (ws, df)

theorem t2ProcessYear_ok (reg_id : String) (year : Int) (csv : Df)
    (h : "regine" ∈ csv.cols) :
    ∃ slice, t2ProcessYear reg_id year csv =
        .ok (t2MatchCount reg_id csv == 0, slice) ∧
      slice.rows.length = t2MatchCount reg_id csv := by
  unfold t2ProcessYear
  rw [if_pos h]
  have hall : ∀ c ∈ (["regine", "År"] ++
      (setCol ⟨csv.cols, regineMatches reg_id csv⟩ "År"
        (fun _ => some (.num (year : ℚ)))).cols.filter
        (fun c => headSeg c == "accum")),
      c ∈ (setCol ⟨csv.cols, regineMatches reg_id csv⟩ "År"
        (fun _ => some (.num (year : ℚ)))).cols := by
    intro c hc
    rcases List.mem_append.1 hc with hc | hc
    · simp only [List.mem_cons, List.not_mem_nil, or_false] at hc
      simp only [setCol]
      rcases hc with rfl | rfl
      · split
        · exact h
        · exact List.mem_append_left _ h
      · split
        · assumption
        · exact List.mem_append_right _ (by simp)
    · exact List.mem_of_mem_filter hc
  simp only [selectCols, if_pos hall, Except.map]
  exact ⟨_, rfl, by simp [setCol, t2MatchCount]⟩

theorem t2Loop_spec (reg_id : String) (src : Int → Except PyErr Df)
    (csvs : Int → Df) :
    ∀ ys : List Int, (∀ y ∈ ys, src y = .ok (csvs y)) →
      (∀ y ∈ ys, "regine" ∈ (csvs y).cols) →
      ∃ ws slices, t2Loop reg_id src ys = .ok (ws, slices) ∧
        ws = ys.filter (fun y => t2MatchCount reg_id (csvs y) == 0) ∧
        slices.map (fun s => s.rows.length) =
          ys.map (fun y => t2MatchCount reg_id (csvs y)) := by
  intro ys
  induction ys with
  | nil => exact fun _ _ => ⟨[], [], rfl, rfl, rfl⟩
  | cons y ys ih =>
    intro h1 h2
    obtain ⟨slice, hp, hlen⟩ :=
      t2ProcessYear_ok reg_id y (csvs y) (h2 y (by simp))
    obtain ⟨ws, slices, hloop, hws, hlens⟩ :=
      ih (fun z hz => h1 z (by simp [hz])) (fun z hz => h2 z (by simp [hz]))
    refine ⟨(if t2MatchCount reg_id (csvs y) == 0 then [y] else []) ++ ws,
            slice :: slices, ?_, ?_, ?_⟩
    · simp only [t2Loop, h1 y (by simp), Bind.bind, Except.bind, hp, hloop,
        Pure.pure, Except.pure]
    · rw [hws, List.filter_cons]
      by_cases hz : (t2MatchCount reg_id (csvs y) == 0) = true
      · simp [hz]
      · rw [Bool.not_eq_true] at hz
        simp [hz]
    · simp [hlen, hlens]

/-- C3: over an inclusive year range where every year's source loads and has a
`regine` column, the v2 load succeeds and its table is the concatenation of
the per-year catchment-filtered slices in ascending year order: the row blocks
are in bijection with the years, the block for each year has exactly as many
rows as that year's CSV has matching rows, the total row count is the sum of
the per-year match counts, and a year warns exactly when it has no matching
rows — no error is raised. -/
theorem t2_result_is_yearwise_concat (st_yr end_yr : Int) (reg_id : String)
    (src : Int → Except PyErr Df) (csvs : Int → Df)
    (hle : st_yr ≤ end_yr)
    (hsrc : ∀ y ∈ pyRange st_yr (end_yr + 1), src y = .ok (csvs y))
    (hreg : ∀ y ∈ pyRange st_yr (end_yr + 1), "regine" ∈ (csvs y).cols) :
    ∃ (ws : List Int) (rowblocks : List (List Row)) (df : Df),
      get_teotil2_results_for_regine st_yr end_yr reg_id src = .ok (ws, df) ∧
      df.rows = rowblocks.flatten ∧
      rowblocks.map List.length =
        (pyRange st_yr (end_yr + 1)).map
          (fun y => t2MatchCount reg_id (csvs y)) ∧
      df.rows.length =
        ((pyRange st_yr (end_yr + 1)).map
          (fun y => t2MatchCount reg_id (csvs y))).sum ∧
      (∀ y ∈ pyRange st_yr (end_yr + 1),
        (t2MatchCount reg_id (csvs y) = 0 ↔ y ∈ ws)) := by
  obtain ⟨ws, slices, hloop, hws, hlens⟩ :=
    t2Loop_spec reg_id src csvs (pyRange st_yr (end_yr + 1)) hsrc hreg
  have hyne : pyRange st_yr (end_yr + 1) ≠ [] := by
    intro hc
    have hlth : (pyRange st_yr (end_yr + 1)).length = (end_yr + 1 - st_yr).toNat := by
      rw [pyRange, List.length_map, List.length_range]
    rw [hc] at hlth
    simp only [List.length_nil] at hlth
    omega
  have hsne : slices ≠ [] := by
    intro hc
    subst hc
    have hl := congrArg List.length hlens
    simp only [List.length_map, List.length_nil] at hl
    exact hyne (List.length_eq_zero.1 hl.symm)
  obtain ⟨s, rest, rfl⟩ := List.exists_cons_of_ne_nil hsne
  have hblock : ((s :: rest).map (fun t => t.rows.map (maskRow t.cols))).map
        List.length = (s :: rest).map (fun t => t.rows.length) := by
    rw [List.map_map]
    simp [Function.comp]
  refine ⟨ws, (s :: rest).map (fun t => t.rows.map (maskRow t.cols)),
    ⟨(s :: rest).foldl (fun acc df => acc ++ df.cols.filter (fun c => c ∉ acc)) [],
     ((s :: rest).map (fun t => t.rows.map (maskRow t.cols))).flatten⟩,
    ?_, rfl, ?_, ?_, ?_⟩
  · simp only [get_teotil2_results_for_regine, Bind.bind, Except.bind, hloop,
      concatDf, Pure.pure, Except.pure]
  · rw [hblock, hlens]
  · rw [List.length_flatten, hblock, hlens]
  · intro y hy
    rw [hws]
    constructor
    · intro h0
      rw [List.mem_filter]
      exact ⟨hy, by simp [h0]⟩
    · intro hmem
      rw [List.mem_filter] at hmem
      simpa using hmem.2

/-- C10: with an empty year range (`st_yr > end_yr`) the v2 loader collects no
per-year slices and `pd.concat` of an empty list raises `ValueError`: the call
errors instead of returning an empty table. -/
theorem t2_empty_range_errors (st_yr end_yr : Int) (reg_id : String)
    (src : Int → Except PyErr Df) (hgt : end_yr < st_yr) :
    get_teotil2_results_for_regine st_yr end_yr reg_id src =
      .error .valueError := by
  have ht : (end_yr + 1 - st_yr).toNat = 0 := by omega
  have hr : pyRange st_yr (end_yr + 1) = [] := by
    simp [pyRange, ht]
  simp only [get_teotil2_results_for_regine, hr, t2Loop, Bind.bind,
    Except.bind, concatDf]

/-- Witness for C10: `start_year = 2018 > 2017 = end_year` errors. -/
theorem t2_empty_range_errors_witness :
    (2017 : Int) < 2018 ∧
    get_teotil2_results_for_regine 2018 2017 "001."
      (fun _ => .ok ⟨["regine"], []⟩) = .error .valueError :=
  ⟨by decide, t2_empty_range_errors 2018 2017 "001."
    (fun _ => .ok ⟨["regine"], []⟩) (by decide)⟩

/-- Concrete per-year CSV source for the C3 witness: one matching row in 2015
and 2017, none in 2016. -/
def t2WitnessCsv (y : Int) : Df :=
  ⟨["regine"], if y = 2016 then [] else
    [fun c => if c = "regine" then some (.str "001.") else none]⟩

/-- The C3 witness's loader source: every year loads successfully. -/
def t2WitnessSrc (y : Int) : Except PyErr Df := .ok (t2WitnessCsv y)

/-- Witness for C3: years 2015-2017, with no matching rows in 2016. -/
theorem t2_result_is_yearwise_concat_witness :
    ((2015 : Int) ≤ 2017 ∧
     (∀ y ∈ pyRange 2015 (2017 + 1), t2WitnessSrc y = .ok (t2WitnessCsv y)) ∧
     (∀ y ∈ pyRange 2015 (2017 + 1), "regine" ∈ (t2WitnessCsv y).cols)) ∧
    (∃ (ws : List Int) (rowblocks : List (List Row)) (df : Df),
      get_teotil2_results_for_regine 2015 2017 "001." t2WitnessSrc =
        .ok (ws, df) ∧
      df.rows = rowblocks.flatten ∧
      rowblocks.map List.length =
        (pyRange 2015 (2017 + 1)).map
          (fun y => t2MatchCount "001." (t2WitnessCsv y)) ∧
      df.rows.length =
        ((pyRange 2015 (2017 + 1)).map
          (fun y => t2MatchCount "001." (t2WitnessCsv y))).sum ∧
      (∀ y ∈ pyRange 2015 (2017 + 1),
        (t2MatchCount "001." (t2WitnessCsv y) = 0 ↔ y ∈ ws))) :=
  ⟨⟨by decide, fun y _ => rfl, fun y _ => by simp [t2WitnessCsv]⟩,
   t2_result_is_yearwise_concat 2015 2017 "001." t2WitnessSrc t2WitnessCsv
     (by decide) (fun y _ => rfl) (fun y _ => by simp [t2WitnessCsv])⟩

/-- The TEOTIL2 aggregation dictionary (utils.py:168-178), key order as in the
source (Python dicts preserve insertion order). -/
def t2_agg_dict (par : String) : List (String × List String) :=
  [("Akvakultur", ["accum_aqu_tot-" ++ par ++ "_tonnes"]),
   ("Jordbruk", ["accum_agri_diff_tot-" ++ par ++ "_tonnes",
                 "accum_agri_pt_tot-" ++ par ++ "_tonnes"]),
   ("Avløp", ["accum_ren_tot-" ++ par ++ "_tonnes",
              "accum_spr_tot-" ++ par ++ "_tonnes"]),
   ("Industri", ["accum_ind_tot-" ++ par ++ "_tonnes"]),
   ("Bebygd", ["accum_urban_tot-" ++ par ++ "_tonnes"]),
   ("Bakgrunn", ["accum_nat_diff_tot-" ++ par ++ "_tonnes"])]

/-- The TEOTIL3 aggregation dictionary (utils.py:180-195). -/
def t3_agg_dict (par : String) : List (String × List String) :=
  [("Akvakultur", ["accum_aquaculture_tot" ++ par ++ "_tonnes"]),
   ("Jordbruk", ["accum_agriculture_tot" ++ par ++ "_tonnes"]),
   ("Avløp", ["accum_large-wastewater_tot" ++ par ++ "_tonnes",
              "accum_spredt_tot" ++ par ++ "_tonnes"]),
   ("Industri", ["accum_industry_tot" ++ par ++ "_tonnes"]),
   ("Bebygd", ["accum_urban_tot" ++ par ++ "_tonnes"]),
   ("Bakgrunn", ["accum_agriculture-background_tot" ++ par ++ "_tonnes",
                 "accum_upland_tot" ++ par ++ "_tonnes",
                 "accum_wood_tot" ++ par ++ "_tonnes",
                 "accum_lake_tot" ++ par ++ "_tonnes"])]

/-- `get_aggregation_dict_for_columns` (utils.py:153): asserts the selectors,
then returns the model-specific dictionary. -/
def get_aggregation_dict_for_columns (par : String) (model : String) :
    Except PyErr (List (String × List String)) :=
  if par = "n" ∨ par = "p" then
    if model = "teotil2" ∨ model = "teotil3" then
      if model = "teotil2" then .ok (t2_agg_dict par) else .ok (t3_agg_dict par)
    else .error .assertionError
  else .error .assertionError

/-- The dictionary returned for valid selectors. -/
def aggDictFor (par model : String) : List (String × List String) :=
  if model = "teotil2" then t2_agg_dict par else t3_agg_dict par

/-- `df[cols].sum(axis=1)` on one row: NaN entries are skipped (pandas
`skipna` default, so an all-NaN selection sums to 0); a string entry in a
column being summed is a `TypeError`. -/
def cellsSum : List (Option Cell) → Except PyErr ℚ
  | [] => .ok 0
  | none :: rest => cellsSum rest
  | some (.num q) :: rest => (cellsSum rest).map (fun s => q + s)
  | some (.str _) :: _ => .error .typeError

/-- Whether an entry is numeric or missing (summable without error). -/
def isNumOrNone (o : Option Cell) : Bool :=
  match o with
  | some (.str _) => false
  | _ => true

/-- Numeric value of an entry with NaN as 0 (pandas skip-NaN summation). -/
def cellD (o : Option Cell) : ℚ :=
  match o with
  | some (.num q) => q
  | _ => 0

/-- Map a fallible row transform over the rows, failing on the first error. -/
def exMapList (f : Row → Except PyErr Row) : List Row → Except PyErr (List Row)
  | [] => .ok []
  | r :: rest => do
      let r' ← f r
      let rest' ← exMapList f rest
      .ok (r' :: rest')

/-- One iteration of the aggregation loop (utils.py:212-213):
`df[group] = df[cols].sum(axis=1)`.  Missing source columns are a
`KeyError`. -/
def aggStep (df : Df) (g : String) (cs : List String) : Except PyErr Df :=
  if ∀ c ∈ cs, c ∈ df.cols then
    (exMapList (fun r => (cellsSum (cs.map r)).map
        (fun q => updateRow r g (some (.num q)))) df.rows).map
      (fun rows => ⟨if g ∈ df.cols then df.cols else df.cols ++ [g], rows⟩)
  else .error .keyError

/-- The aggregation loop over the dictionary entries in order. -/
def aggFold (df : Df) : List (String × List String) → Except PyErr Df
  | [] => .ok df
  | (g, cs) :: rest => do aggFold (← aggStep df g cs) rest

/-- `aggregate_parameters` (utils.py:200): look up the dictionary, run the
aggregation loop, then select `regine`, `År` and the six category columns. -/
def aggregate_parameters (df : Df) (par model : String) : Except PyErr Df := do
  let agg ← get_aggregation_dict_for_columns par model
  let df2 ← aggFold df agg
  selectCols (["regine", "År"] ++ agg.map Prod.fst) df2

theorem cellsSum_ok (l : List (Option Cell)) (h : ∀ o ∈ l, isNumOrNone o) :
    cellsSum l = .ok ((l.map cellD).sum) := by
  induction l with
  | nil => rfl
  | cons o rest ih =>
    have hrest := ih (fun x hx => h x (by simp [hx]))
    match o, h o (by simp) with
    | none, _ => simp [cellsSum, cellD, hrest]
    | some (.num q), _ => simp [cellsSum, cellD, hrest, Except.map]

/-- The row transform the aggregation loop performs: each dictionary entry in
order writes its group column with the row-wise sum of its source columns (as
read at that point of the loop). -/
def aggRow : List (String × List String) → Row → Row
  | [], r => r
  | p :: rest, r =>
      aggRow rest (updateRow r p.1 (some (.num ((p.2.map r).map cellD).sum)))

theorem exMapList_ok (f : Row → Except PyErr Row) (g : Row → Row)
    (l : List Row) (h : ∀ r ∈ l, f r = .ok (g r)) :
    exMapList f l = .ok (l.map g) := by
  induction l with
  | nil => rfl
  | cons r rest ih =>
    simp only [exMapList, h r (by simp), Bind.bind, Except.bind,
      ih (fun x hx => h x (by simp [hx])), List.map_cons]

theorem aggStep_ok (df : Df) (g : String) (cs : List String)
    (hcs : ∀ c ∈ cs, c ∈ df.cols)
    (hnum : ∀ r ∈ df.rows, ∀ c ∈ cs, isNumOrNone (r c)) :
    aggStep df g cs = .ok
      ⟨if g ∈ df.cols then df.cols else df.cols ++ [g],
       df.rows.map (fun r =>
         updateRow r g (some (.num ((cs.map r).map cellD).sum)))⟩ := by
  unfold aggStep
  rw [if_pos hcs]
  rw [exMapList_ok _
    (fun r => updateRow r g (some (.num ((cs.map r).map cellD).sum))) df.rows ?_]
  · rfl
  · intro r hr
    rw [cellsSum_ok (cs.map r) ?_]
    · rfl
    · intro o ho
      obtain ⟨c, hc, rfl⟩ := List.mem_map.1 ho
      exact hnum r hr c hc

theorem aggFold_ok (dict : List (String × List String)) :
    ∀ df : Df, (∀ p ∈ dict, ∀ c ∈ p.2, c ∈ df.cols) →
      (∀ r ∈ df.rows, ∀ p ∈ dict, ∀ c ∈ p.2, isNumOrNone (r c)) →
      ∃ cols2, aggFold df dict = .ok ⟨cols2, df.rows.map (aggRow dict)⟩ ∧
        (∀ c ∈ df.cols, c ∈ cols2) ∧ (∀ p ∈ dict, p.1 ∈ cols2) := by
  induction dict with
  | nil =>
    intro df _ _
    exact ⟨df.cols, by simp [aggFold, aggRow], fun c h => h, by simp⟩
  | cons hd rest ih =>
    intro df hset hnum
    have hstep := aggStep_ok df hd.1 hd.2
      (hset hd (by simp)) (fun r hr => hnum r hr hd (by simp))
    set v := fun r : Row => some (Cell.num ((hd.2.map r).map cellD).sum) with hv
    set df' : Df :=
      ⟨if hd.1 ∈ df.cols then df.cols else df.cols ++ [hd.1],
       df.rows.map (fun r => updateRow r hd.1 (v r))⟩ with hdf'
    have hsub' : ∀ c ∈ df.cols, c ∈ df'.cols := by
      intro c hc
      simp only [hdf']
      split
      · exact hc
      · exact List.mem_append_left _ hc
    have hhd : hd.1 ∈ df'.cols := by
      simp only [hdf']
      split
      · assumption
      · exact List.mem_append_right _ (by simp)
    obtain ⟨cols2, hfold, hsub, hgrp⟩ := ih df'
      (fun p hp c hc => hsub' c (hset p (by simp [hp]) c hc))
      (by
        intro r' hr' p hp c hc
        obtain ⟨r, hr, rfl⟩ := List.mem_map.1 hr'
        by_cases hcg : c = hd.1
        · subst hcg
          simp [updateRow, isNumOrNone]
        · simp only [updateRow, if_neg hcg]
          exact hnum r hr p (by simp [hp]) c hc)
    refine ⟨cols2, ?_, fun c hc => hsub c (hsub' c hc), ?_⟩
    · simp only [aggFold, Bind.bind, Except.bind, hstep]
      rw [hfold]
      simp only [hdf', List.map_map]
      rfl
    · intro p hp
      rcases List.mem_cons.1 hp with rfl | hp
      · exact hsub _ hhd
      · exact hgrp p hp

theorem aggRow_untouched (dict : List (String × List String)) :
    ∀ (r : Row) (c : String), c ∉ dict.map Prod.fst → aggRow dict r c = r c := by
  induction dict with
  | nil => intro r c _; rfl
  | cons p rest ih =>
    intro r c hc
    simp only [List.map_cons, List.mem_cons, not_or] at hc
    simp only [aggRow]
    rw [ih _ c hc.2]
    simp [updateRow, hc.1]

theorem aggRow_value (dict : List (String × List String)) :
    (dict.map Prod.fst).Nodup →
    (∀ p ∈ dict, ∀ q ∈ dict, p.1 ∉ q.2) →
    ∀ (r : Row), ∀ p ∈ dict,
      aggRow dict r p.1 = some (.num ((p.2.map r).map cellD).sum) := by
  induction dict with
  | nil => intro _ _ r p hp; cases hp
  | cons hd rest ih =>
    intro hnodup hdisj r p hp
    simp only [aggRow]
    have hn := hnodup
    rw [List.map_cons, List.nodup_cons] at hn
    rcases List.mem_cons.1 hp with rfl | hp
    · rw [aggRow_untouched rest _ p.1 hn.1]
      simp [updateRow]
    · have hih := ih hn.2
        (fun a ha b hb => hdisj a (by simp [ha]) b (by simp [hb]))
        (updateRow r hd.1 (some (.num ((hd.2.map r).map cellD).sum))) p hp
      rw [hih]
      have hmapeq : p.2.map (updateRow r hd.1
          (some (.num ((hd.2.map r).map cellD).sum))) = p.2.map r := by
        apply List.map_congr_left
        intro c hcmem
        have hne : c ≠ hd.1 := by
          intro hccc
          exact hdisj hd (by simp) p (by simp [hp]) (hccc ▸ hcmem)
        simp [updateRow, hne]
      rw [hmapeq]

theorem get_aggregation_dict_ok (par model : String)
    (hpar : par = "n" ∨ par = "p")
    (hmodel : model = "teotil2" ∨ model = "teotil3") :
    get_aggregation_dict_for_columns par model = .ok (aggDictFor par model) := by
  unfold get_aggregation_dict_for_columns aggDictFor
  rw [if_pos hpar, if_pos hmodel]
  rcases hmodel with rfl | rfl
  · rw [if_pos rfl, if_pos rfl]
  · rw [if_neg (by decide), if_neg (by decide)]

theorem aggDictFor_fst (par model : String) :
    (aggDictFor par model).map Prod.fst =
      ["Akvakultur", "Jordbruk", "Avløp", "Industri", "Bebygd", "Bakgrunn"] := by
  unfold aggDictFor
  split <;> rfl

theorem aggDictFor_disjoint (par model : String)
    (hpar : par = "n" ∨ par = "p") :
    ∀ p ∈ aggDictFor par model, ∀ q ∈ aggDictFor par model, p.1 ∉ q.2 := by
  unfold aggDictFor
  rcases hpar with rfl | rfl <;> split <;> decide

/-- C5: for every table containing the loader's identifying columns and all
source columns of the `(pollutant, model_version)` aggregation mapping (with
numeric-or-missing entries there), `aggregate_parameters` succeeds, its
output columns are exactly `regine`, `År` and the six categories in the fixed
order, its rows correspond one-to-one to the input rows, and each category
entry equals the row-wise (NaN-skipping) sum of that category's mapped source
columns in the input row. -/
theorem aggregate_category_sums (df : Df) (par model : String)
    (hpar : par = "n" ∨ par = "p")
    (hmodel : model = "teotil2" ∨ model = "teotil3")
    (hreg : "regine" ∈ df.cols) (hyr : "År" ∈ df.cols)
    (hsrc : ∀ p ∈ aggDictFor par model, ∀ c ∈ p.2, c ∈ df.cols)
    (hnum : ∀ r ∈ df.rows, ∀ p ∈ aggDictFor par model, ∀ c ∈ p.2,
      isNumOrNone (r c)) :
    ∃ (out : Df) (F : Row → Row),
      aggregate_parameters df par model = .ok out ∧
      out.cols = ["regine", "År", "Akvakultur", "Jordbruk", "Avløp",
        "Industri", "Bebygd", "Bakgrunn"] ∧
      out.rows = df.rows.map F ∧
      (∀ r : Row, ∀ p ∈ aggDictFor par model,
        F r p.1 = some (.num ((p.2.map r).map cellD).sum)) := by
  obtain ⟨cols2, hfold, hsub, hgrp⟩ := aggFold_ok (aggDictFor par model) df hsrc hnum
  have hreq : ∀ c ∈ ["regine", "År"] ++ (aggDictFor par model).map Prod.fst,
      c ∈ (⟨cols2, df.rows.map (aggRow (aggDictFor par model))⟩ : Df).cols := by
    intro c hc
    rcases List.mem_append.1 hc with hc | hc
    · simp only [List.mem_cons, List.not_mem_nil, or_false] at hc
      rcases hc with rfl | rfl
      · exact hsub _ hreg
      · exact hsub _ hyr
    · obtain ⟨p, hp, rfl⟩ := List.mem_map.1 hc
      exact hgrp p hp
  refine ⟨⟨["regine", "År"] ++ (aggDictFor par model).map Prod.fst,
      (df.rows.map (aggRow (aggDictFor par model))).map
        (maskRow (["regine", "År"] ++ (aggDictFor par model).map Prod.fst))⟩,
    fun r => maskRow (["regine", "År"] ++ (aggDictFor par model).map Prod.fst)
      (aggRow (aggDictFor par model) r),
    ?_, ?_, ?_, ?_⟩
  · simp only [aggregate_parameters, Bind.bind, Except.bind,
      get_aggregation_dict_ok par model hpar hmodel, hfold, selectCols,
      if_pos hreq]
  · rw [aggDictFor_fst]
    rfl
  · rw [List.map_map]
    rfl
  · intro r p hp
    have hmem : p.1 ∈ ["regine", "År"] ++ (aggDictFor par model).map Prod.fst :=
      List.mem_append_right _ (List.mem_map.2 ⟨p, hp, rfl⟩)
    have hval := aggRow_value (aggDictFor par model)
      (by rw [aggDictFor_fst]; decide)
      (aggDictFor_disjoint par model hpar) r p hp
    simp only [maskRow, if_pos hmem, hval]

/-- The input table for the C5 witness: one row with
`accum_aqu_tot-n_tonnes = 5` and every other mapped TEOTIL2 column 0. -/
def aggWitnessDf : Df :=
  ⟨["regine", "År", "accum_aqu_tot-n_tonnes", "accum_agri_diff_tot-n_tonnes",
    "accum_agri_pt_tot-n_tonnes", "accum_ren_tot-n_tonnes",
    "accum_spr_tot-n_tonnes", "accum_ind_tot-n_tonnes",
    "accum_urban_tot-n_tonnes", "accum_nat_diff_tot-n_tonnes"],
   [fun c =>
      if c = "regine" then some (.str "001.")
      else if c = "År" then some (.num 2015)
      else if c = "accum_aqu_tot-n_tonnes" then some (.num 5)
      else some (.num 0)]⟩

/-- Witness for C5: pollutant `n` under `teotil2` on `aggWitnessDf`. -/
theorem aggregate_category_sums_witness :
    (("n" = "n" ∨ "n" = "p") ∧ ("teotil2" = "teotil2" ∨ "teotil2" = "teotil3") ∧
     "regine" ∈ aggWitnessDf.cols ∧ "År" ∈ aggWitnessDf.cols ∧
     (∀ p ∈ aggDictFor "n" "teotil2", ∀ c ∈ p.2, c ∈ aggWitnessDf.cols) ∧
     (∀ r ∈ aggWitnessDf.rows, ∀ p ∈ aggDictFor "n" "teotil2", ∀ c ∈ p.2,
        isNumOrNone (r c))) ∧
    (∃ (out : Df) (F : Row → Row),
      aggregate_parameters aggWitnessDf "n" "teotil2" = .ok out ∧
      out.cols = ["regine", "År", "Akvakultur", "Jordbruk", "Avløp",
        "Industri", "Bebygd", "Bakgrunn"] ∧
      out.rows = aggWitnessDf.rows.map F ∧
      (∀ r : Row, ∀ p ∈ aggDictFor "n" "teotil2",
        F r p.1 = some (.num ((p.2.map r).map cellD).sum))) :=
  ⟨⟨Or.inl rfl, Or.inl rfl, by decide, by decide, by decide, by decide⟩,
   aggregate_category_sums aggWitnessDf "n" "teotil2" (Or.inl rfl) (Or.inl rfl)
     (by decide) (by decide) (by decide) (by decide)⟩

/-- `df[col] / 1000` on one entry: NaN stays NaN, numbers divide, a string is
a `TypeError`. -/
def divCell : Option Cell → Except PyErr (Option Cell)
  | none => .ok none
  | some (.num q) => .ok (some (.num (q / 1000)))
  | some (.str _) => .error .typeError

/-- The successful value of `divCell` on a numeric-or-missing entry. -/
def pureDiv : Option Cell → Option Cell
  | some (.num q) => some (.num (q / 1000))
  | _ => none

/-- One iteration of the `_kg` → `_tonnes` loop (utils.py:144-148): for a
column ending in `_kg`, compute the new name by replacing every occurrence of
`_kg` with `_tonnes` (Python `str.replace` replaces all occurrences), assign
the divided column under the new name and delete the old column.  Reading a
column that is not present is a `KeyError`. -/
def kgStep (df : Df) (col : String) : Except PyErr Df :=
  if pyEndsWith col "_kg" then
    if col ∈ df.cols then
      (exMapList (fun r => (divCell (r col)).map
          (fun v => updateRow r (pyReplace col "_kg" "_tonnes") v)) df.rows).map
        (fun rows =>
          ⟨(if pyReplace col "_kg" "_tonnes" ∈ df.cols then df.cols
            else df.cols ++ [pyReplace col "_kg" "_tonnes"]).erase col, rows⟩)
    else .error .keyError
  else .ok df

/-- The `_kg` loop over the snapshot of the column list taken at loop entry
(Python iterates the `df.columns` Index object captured before any
mutation). -/
def kgLoop : Df → List String → Except PyErr Df
  | df, [] => .ok df
  | df, c :: cs => do kgLoop (← kgStep df c) cs

/-- One row's verdict for
`df.query("(regine == @reg_id) and (year >= @st_yr) and (year <= @end_yr)")`:
a missing year entry compares false, a string year entry is a comparison
`TypeError`. -/
def t3RowKeep (reg_id : String) (st_yr end_yr : Int) (r : Row) :
    Except PyErr Bool :=
  match r "year" with
  | some (.num q) =>
      .ok (decide (r "regine" = some (.str reg_id)) &&
           decide ((st_yr : ℚ) ≤ q) && decide (q ≤ (end_yr : ℚ)))
  | some (.str _) => .error .typeError
  | none => .ok false

/-- The pure verdict of `t3RowKeep` when the year entries are numeric. -/
def t3KeepB (reg_id : String) (st_yr end_yr : Int) (r : Row) : Bool :=
  match r "year" with
  | some (.num q) =>
      decide (r "regine" = some (.str reg_id)) &&
      decide ((st_yr : ℚ) ≤ q) && decide (q ≤ (end_yr : ℚ))
  | _ => false

/-- Filter a row list by a fallible predicate, failing on the first error. -/
def exFilter (p : Row → Except PyErr Bool) : List Row → Except PyErr (List Row)
  | [] => .ok []
  | r :: rest => do
      let b ← p r
      let rest' ← exFilter p rest
      .ok (if b then r :: rest' else rest')

/-- The rows of the v3 CSV matching the catchment and year range. -/
def t3Matched (reg_id : String) (st_yr end_yr : Int) (csv : Df) : List Row :=
  csv.rows.filter (t3KeepB reg_id st_yr end_yr)

/-- `get_teotil3_results_for_regine` (utils.py:131): read the local CSV
(`FileNotFoundError` when absent, modelled by `src = none`), filter by
catchment and year range, copy `year` into `År`, select `regine`, `År` and
the `accum_*` columns, then run the `_kg` → `_tonnes` loop over the selected
columns.  Returns the warning flag together with the final table. -/
def get_teotil3_results_for_regine (st_yr end_yr : Int) (reg_id : String)
    (src : Option Df) : Except PyErr (Bool × Df) :=
  match src with
  | none => .error .fileNotFoundError
  | some csv =>
    if "regine" ∈ csv.cols ∧ "year" ∈ csv.cols then do
      let matched ← exFilter (t3RowKeep reg_id st_yr end_yr) csv.rows
      let warn := matched.length == 0
      let df1 := setCol ⟨csv.cols, matched⟩ "År" (fun r => r "year")
      let accums := df1.cols.filter (fun c => headSeg c == "accum")
      let df2 ← selectCols (["regine", "År"] ++ accums) df1
      let df3 ← kgLoop df2 df2.cols
      .ok (warn, df3)
    else .error .keyError

theorem exFilter_ok (p : Row → Except PyErr Bool) (q : Row → Bool)
    (l : List Row) (h : ∀ r ∈ l, p r = .ok (q r)) :
    exFilter p l = .ok (l.filter q) := by
  induction l with
  | nil => rfl
  | cons r rest ih =>
    simp only [exFilter, h r (by simp), Bind.bind, Except.bind,
      ih (fun x hx => h x (by simp [hx])), List.filter_cons]

theorem t3RowKeep_ok (reg_id : String) (st_yr end_yr : Int) (r : Row)
    (h : isNumOrNone (r "year")) :
    t3RowKeep reg_id st_yr end_yr r = .ok (t3KeepB reg_id st_yr end_yr r) := by
  unfold t3RowKeep t3KeepB
  match hy : r "year" with
  | none => rfl
  | some (.num q) => rfl
  | some (.str s) => rw [hy] at h; cases h

theorem divCell_ok (o : Option Cell) (h : isNumOrNone o) :
    divCell o = .ok (pureDiv o) := by
  match o with
  | none => rfl
  | some (.num q) => rfl
  | some (.str s) => cases h

theorem isNumOrNone_pureDiv (o : Option Cell) : isNumOrNone (pureDiv o) := by
  match o with
  | none => rfl
  | some (.num q) => rfl
  | some (.str s) => rfl

theorem isNumOrNone_update (r : Row) (name : String) (v : Option Cell)
    (c : String) (hv : isNumOrNone v) (hc : isNumOrNone (r c)) :
    isNumOrNone (updateRow r name v c) := by
  unfold updateRow
  split
  · exact hv
  · exact hc

theorem kgLoop_keep (col nc : String) (hnkg : pyEndsWith nc "_kg" = false) :
    ∀ (rem : List String) (df : Df),
      rem.Nodup → df.cols.Nodup →
      (∀ c ∈ rem, c ∈ df.cols) →
      nc ∈ df.cols → col ∉ df.cols →
      (∀ c ∈ rem, pyEndsWith c "_kg" = true →
        pyReplace c "_kg" "_tonnes" ≠ nc ∧ pyReplace c "_kg" "_tonnes" ≠ col) →
      (∀ r ∈ df.rows, ∀ c ∈ rem, pyEndsWith c "_kg" = true → isNumOrNone (r c)) →
      ∃ (cols' : List String) (G : Row → Row),
        kgLoop df rem = .ok ⟨cols', df.rows.map G⟩ ∧
        nc ∈ cols' ∧ col ∉ cols' ∧ (∀ r : Row, G r nc = r nc) := by
  intro rem
  induction rem with
  | nil =>
    intro df _ _ _ hnc hcol _ _
    exact ⟨df.cols, fun r => r, by simp [kgLoop], hnc, hcol, fun r => rfl⟩
  | cons c rest ih =>
    intro df hnd hcnd hsub hnc hcol hrepl hnum
    have hndr := List.nodup_cons.1 hnd
    by_cases hk : pyEndsWith c "_kg" = true
    · have hcmem : c ∈ df.cols := hsub c (by simp)
      have hex : exMapList (fun r => (divCell (r c)).map
            (fun v => updateRow r (pyReplace c "_kg" "_tonnes") v)) df.rows
          = .ok (df.rows.map
            (fun r => updateRow r (pyReplace c "_kg" "_tonnes") (pureDiv (r c)))) := by
        apply exMapList_ok
        intro r hr
        rw [divCell_ok (r c) (hnum r hr c (by simp) hk)]
        rfl
      have hstep : kgStep df c = .ok
          ⟨(if pyReplace c "_kg" "_tonnes" ∈ df.cols then df.cols
            else df.cols ++ [pyReplace c "_kg" "_tonnes"]).erase c,
           df.rows.map (fun r =>
             updateRow r (pyReplace c "_kg" "_tonnes") (pureDiv (r c)))⟩ := by
        unfold kgStep
        rw [if_pos hk, if_pos hcmem, hex]
        rfl
      have hbase : ∀ x ∈ df.cols, x ∈ (if pyReplace c "_kg" "_tonnes" ∈ df.cols
          then df.cols else df.cols ++ [pyReplace c "_kg" "_tonnes"]) := by
        intro x hx
        split
        · exact hx
        · exact List.mem_append_left _ hx
      have hbasend : (if pyReplace c "_kg" "_tonnes" ∈ df.cols
          then df.cols else df.cols ++ [pyReplace c "_kg" "_tonnes"]).Nodup := by
        split
        · exact hcnd
        · rename_i hni
          exact List.Nodup.append hcnd (by simp) (by
            intro a ha hb
            simp only [List.mem_singleton] at hb
            subst hb
            exact hni ha)
      have hnceqc : nc ≠ c := by
        intro hcc
        rw [hcc, hk] at hnkg
        cases hnkg
      obtain ⟨cols'', G', hloop, hnc'', hcol'', hGnc⟩ := ih
        ⟨(if pyReplace c "_kg" "_tonnes" ∈ df.cols then df.cols
          else df.cols ++ [pyReplace c "_kg" "_tonnes"]).erase c,
         df.rows.map (fun r =>
           updateRow r (pyReplace c "_kg" "_tonnes") (pureDiv (r c)))⟩
        hndr.2 (List.Nodup.erase _ hbasend)
        (by
          intro x hx
          have hxc : x ≠ c := by
            intro hxx
            subst hxx
            exact hndr.1 hx
          exact (List.mem_erase_of_ne hxc).2 (hbase x (hsub x (by simp [hx]))))
        ((List.mem_erase_of_ne hnceqc).2 (hbase nc hnc))
        (by
          intro hmem
          have := List.mem_of_mem_erase hmem
          have hne : pyReplace c "_kg" "_tonnes" ≠ col :=
            (hrepl c (by simp) hk).2
          rcases (by
            split at this
            · exact Or.inl this
            · rcases List.mem_append.1 this with h1 | h1
              · exact Or.inl h1
              · exact Or.inr (by simpa using h1) :
              col ∈ df.cols ∨ col = pyReplace c "_kg" "_tonnes") with h1 | h1
          · exact hcol h1
          · exact hne h1.symm)
        (fun x hx => hrepl x (by simp [hx]))
        (by
          intro r' hr' x hx hxk
          obtain ⟨r, hr, rfl⟩ := List.mem_map.1 hr'
          exact isNumOrNone_update r _ _ x (isNumOrNone_pureDiv _)
            (hnum r hr x (by simp [hx]) hxk))
      refine ⟨cols'', fun r => G' (updateRow r (pyReplace c "_kg" "_tonnes")
        (pureDiv (r c))), ?_, hnc'', hcol'', ?_⟩
      · simp only [kgLoop, Bind.bind, Except.bind, hstep]
        rw [hloop]
        simp [List.map_map, Function.comp]
      · intro r
        show G' (updateRow r (pyReplace c "_kg" "_tonnes") (pureDiv (r c))) nc = r nc
        rw [hGnc]
        have hne : pyReplace c "_kg" "_tonnes" ≠ nc := (hrepl c (by simp) hk).1
        unfold updateRow
        rw [if_neg (fun h => hne h.symm)]
    · have hstep : kgStep df c = .ok df := by
        unfold kgStep
        rw [if_neg hk]
      obtain ⟨cols'', G', hloop, hnc'', hcol'', hGnc⟩ := ih df hndr.2 hcnd
        (fun x hx => hsub x (by simp [hx])) hnc hcol
        (fun x hx => hrepl x (by simp [hx]))
        (fun r hr x hx => hnum r hr x (by simp [hx]))
      exact ⟨cols'', G', by simp only [kgLoop, Bind.bind, Except.bind, hstep,
        hloop], hnc'', hcol'', hGnc⟩

theorem kgLoop_main (col nc : String) (hkg : pyEndsWith col "_kg" = true)
    (hnkg : pyEndsWith nc "_kg" = false)
    (hncdef : nc = pyReplace col "_kg" "_tonnes") :
    ∀ (rem : List String) (df : Df),
      rem.Nodup → df.cols.Nodup →
      col ∈ rem →
      (∀ c ∈ rem, c ∈ df.cols) →
      nc ∉ df.cols →
      (∀ c ∈ rem, c ≠ col → pyEndsWith c "_kg" = true →
        pyReplace c "_kg" "_tonnes" ≠ nc ∧ pyReplace c "_kg" "_tonnes" ≠ col) →
      (∀ r ∈ df.rows, ∀ c ∈ rem, pyEndsWith c "_kg" = true → isNumOrNone (r c)) →
      ∃ (cols' : List String) (G : Row → Row),
        kgLoop df rem = .ok ⟨cols', df.rows.map G⟩ ∧
        nc ∈ cols' ∧ col ∉ cols' ∧
        (∀ r : Row, G r nc = pureDiv (r col)) := by
  intro rem
  induction rem with
  | nil =>
    intro df _ _ hcolmem
    cases hcolmem
  | cons c rest ih =>
    intro df hnd hcnd hcolmem hsub hnc hrepl hnum
    have hndr := List.nodup_cons.1 hnd
    by_cases hc : c = col
    · subst hc
      have hcmem : c ∈ df.cols := hsub c (by simp)
      have hex : exMapList (fun r => (divCell (r c)).map
            (fun v => updateRow r (pyReplace c "_kg" "_tonnes") v)) df.rows
          = .ok (df.rows.map
            (fun r => updateRow r (pyReplace c "_kg" "_tonnes") (pureDiv (r c)))) := by
        apply exMapList_ok
        intro r hr
        rw [divCell_ok (r c) (hnum r hr c (by simp) hkg)]
        rfl
      have hreplmem : pyReplace c "_kg" "_tonnes" ∉ df.cols := by
        rw [← hncdef]
        exact hnc
      have hstep : kgStep df c = .ok
          ⟨(df.cols ++ [pyReplace c "_kg" "_tonnes"]).erase c,
           df.rows.map (fun r =>
             updateRow r (pyReplace c "_kg" "_tonnes") (pureDiv (r c)))⟩ := by
        unfold kgStep
        rw [if_pos hkg, if_pos hcmem, hex, if_neg hreplmem]
        rfl
      have hbasend : (df.cols ++ [pyReplace c "_kg" "_tonnes"]).Nodup :=
        List.Nodup.append hcnd (by simp) (by
          intro a ha hb
          simp only [List.mem_singleton] at hb
          subst hb
          exact hreplmem ha)
      have hnceqc : nc ≠ c := by
        intro hcc
        rw [hcc, hkg] at hnkg
        cases hnkg
      obtain ⟨cols'', G', hloop, hnc'', hcol'', hGnc⟩ :=
        kgLoop_keep c nc hnkg rest
          ⟨(df.cols ++ [pyReplace c "_kg" "_tonnes"]).erase c,
           df.rows.map (fun r =>
             updateRow r (pyReplace c "_kg" "_tonnes") (pureDiv (r c)))⟩
          hndr.2 (List.Nodup.erase _ hbasend)
          (by
            intro x hx
            have hxc : x ≠ c := by
              intro hxx
              subst hxx
              exact hndr.1 hx
            exact (List.mem_erase_of_ne hxc).2
              (List.mem_append_left _ (hsub x (by simp [hx]))))
          ((List.mem_erase_of_ne hnceqc).2
            (by rw [hncdef]; exact List.mem_append_right _ (by simp)))
          (List.Nodup.not_mem_erase hbasend)
          (by
            intro x hx hxk
            exact hrepl x (by simp [hx])
              (fun hxx => hndr.1 (hxx ▸ hx)) hxk)
          (by
            intro r' hr' x hx hxk
            obtain ⟨r, hr, rfl⟩ := List.mem_map.1 hr'
            exact isNumOrNone_update r _ _ x (isNumOrNone_pureDiv _)
              (hnum r hr x (by simp [hx]) hxk))
      refine ⟨cols'', fun r => G' (updateRow r (pyReplace c "_kg" "_tonnes")
        (pureDiv (r c))), ?_, hnc'', hcol'', ?_⟩
      · simp only [kgLoop, Bind.bind, Except.bind, hstep]
        rw [hloop]
        simp [List.map_map, Function.comp]
      · intro r
        show G' (updateRow r (pyReplace c "_kg" "_tonnes") (pureDiv (r c))) nc
          = pureDiv (r c)
        rw [hGnc]
        unfold updateRow
        rw [if_pos hncdef]
    · have hcolrest : col ∈ rest := by
        rcases List.mem_cons.1 hcolmem with hx | hx
        · exact absurd hx.symm hc
        · exact hx
      by_cases hk : pyEndsWith c "_kg" = true
      · have hcmem : c ∈ df.cols := hsub c (by simp)
        have hex : exMapList (fun r => (divCell (r c)).map
              (fun v => updateRow r (pyReplace c "_kg" "_tonnes") v)) df.rows
            = .ok (df.rows.map
              (fun r => updateRow r (pyReplace c "_kg" "_tonnes") (pureDiv (r c)))) := by
          apply exMapList_ok
          intro r hr
          rw [divCell_ok (r c) (hnum r hr c (by simp) hk)]
          rfl
        have hstep : kgStep df c = .ok
            ⟨(if pyReplace c "_kg" "_tonnes" ∈ df.cols then df.cols
              else df.cols ++ [pyReplace c "_kg" "_tonnes"]).erase c,
             df.rows.map (fun r =>
               updateRow r (pyReplace c "_kg" "_tonnes") (pureDiv (r c)))⟩ := by
          unfold kgStep
          rw [if_pos hk, if_pos hcmem, hex]
          rfl
        have hrc := hrepl c (by simp) hc hk
        have hbase : ∀ x ∈ df.cols, x ∈ (if pyReplace c "_kg" "_tonnes" ∈ df.cols
            then df.cols else df.cols ++ [pyReplace c "_kg" "_tonnes"]) := by
          intro x hx
          split
          · exact hx
          · exact List.mem_append_left _ hx
        have hbasend : (if pyReplace c "_kg" "_tonnes" ∈ df.cols
            then df.cols else df.cols ++ [pyReplace c "_kg" "_tonnes"]).Nodup := by
          split
          · exact hcnd
          · rename_i hni
            exact List.Nodup.append hcnd (by simp) (by
              intro a ha hb
              simp only [List.mem_singleton] at hb
              subst hb
              exact hni ha)
        obtain ⟨cols'', G', hloop, hnc'', hcol'', hGnc⟩ := ih
          ⟨(if pyReplace c "_kg" "_tonnes" ∈ df.cols then df.cols
            else df.cols ++ [pyReplace c "_kg" "_tonnes"]).erase c,
           df.rows.map (fun r =>
             updateRow r (pyReplace c "_kg" "_tonnes") (pureDiv (r c)))⟩
          hndr.2 (List.Nodup.erase _ hbasend) hcolrest
          (by
            intro x hx
            have hxc : x ≠ c := by
              intro hxx
              subst hxx
              exact hndr.1 hx
            exact (List.mem_erase_of_ne hxc).2 (hbase x (hsub x (by simp [hx]))))
          (by
            intro hmem
            have hin := List.mem_of_mem_erase hmem
            rcases (by
              split at hin
              · exact Or.inl hin
              · rcases List.mem_append.1 hin with h1 | h1
                · exact Or.inl h1
                · exact Or.inr (by simpa using h1) :
                nc ∈ df.cols ∨ nc = pyReplace c "_kg" "_tonnes") with h1 | h1
            · exact hnc h1
            · exact hrc.1 h1.symm)
          (fun x hx => hrepl x (by simp [hx]))
          (by
            intro r' hr' x hx hxk
            obtain ⟨r, hr, rfl⟩ := List.mem_map.1 hr'
            exact isNumOrNone_update r _ _ x (isNumOrNone_pureDiv _)
              (hnum r hr x (by simp [hx]) hxk))
        refine ⟨cols'', fun r => G' (updateRow r (pyReplace c "_kg" "_tonnes")
          (pureDiv (r c))), ?_, hnc'', hcol'', ?_⟩
        · simp only [kgLoop, Bind.bind, Except.bind, hstep]
          rw [hloop]
          simp [List.map_map, Function.comp]
        · intro r
          show G' (updateRow r (pyReplace c "_kg" "_tonnes") (pureDiv (r c))) nc
            = pureDiv (r col)
          rw [hGnc]
          unfold updateRow
          rw [if_neg (fun h => hrc.2 h.symm)]
      · have hstep : kgStep df c = .ok df := by
          unfold kgStep
          rw [if_neg hk]
        obtain ⟨cols'', G', hloop, hnc'', hcol'', hGnc⟩ := ih df hndr.2 hcnd
          hcolrest (fun x hx => hsub x (by simp [hx])) hnc
          (fun x hx => hrepl x (by simp [hx]))
          (fun r hr x hx => hnum r hr x (by simp [hx]))
        exact ⟨cols'', G', by simp only [kgLoop, Bind.bind, Except.bind, hstep,
          hloop], hnc'', hcol'', hGnc⟩

/-- C4: for a v3 load whose CSV follows the v3 schema (a `regine` and a
numeric `year` column, no duplicate or pre-existing `År`/`_tonnes` name
collisions, numeric `_kg` entries) and any selected accumulated column `col`
ending in `_kg`, the load succeeds and the returned table contains the
corresponding column named by replacing `_kg` with `_tonnes` whose every
value is the original value divided by 1000, and does not contain `col`
itself. -/
theorem t3_kg_columns_become_tonnes (st_yr end_yr : Int) (reg_id : String)
    (csv : Df) (col nc : String)
    (hreg : "regine" ∈ csv.cols) (hyear : "year" ∈ csv.cols)
    (hnodup : csv.cols.Nodup) (hnoyr : "År" ∉ csv.cols)
    (hcol : col ∈ csv.cols) (haccum : headSeg col = "accum")
    (hkg : pyEndsWith col "_kg" = true)
    (hncdef : nc = pyReplace col "_kg" "_tonnes")
    (hnkg : pyEndsWith nc "_kg" = false)
    (hfresh : nc ∉ csv.cols) (hncr : nc ≠ "regine") (hncy : nc ≠ "År")
    (hothers : ∀ c ∈ csv.cols, c ≠ col → pyEndsWith c "_kg" = true →
      pyReplace c "_kg" "_tonnes" ≠ nc ∧ pyReplace c "_kg" "_tonnes" ≠ col)
    (hyearnum : ∀ r ∈ csv.rows, isNumOrNone (r "year"))
    (hkgnum : ∀ r ∈ csv.rows, ∀ c ∈ csv.cols, pyEndsWith c "_kg" = true →
      isNumOrNone (r c)) :
    ∃ (warn : Bool) (out : Df) (H : Row → Row),
      get_teotil3_results_for_regine st_yr end_yr reg_id (some csv) =
        .ok (warn, out) ∧
      nc ∈ out.cols ∧ col ∉ out.cols ∧
      out.rows = (t3Matched reg_id st_yr end_yr csv).map H ∧
      (∀ m : Row, H m nc = pureDiv (m col)) := by
  have hfema : exFilter (t3RowKeep reg_id st_yr end_yr) csv.rows =
      .ok (t3Matched reg_id st_yr end_yr csv) :=
    exFilter_ok _ _ _
      (fun r hr => t3RowKeep_ok reg_id st_yr end_yr r (hyearnum r hr))
  have hd1 : setCol ⟨csv.cols, t3Matched reg_id st_yr end_yr csv⟩ "År"
      (fun r => r "year") =
      ⟨csv.cols ++ ["År"], (t3Matched reg_id st_yr end_yr csv).map
        (fun m => updateRow m "År" (m "year"))⟩ := by
    unfold setCol
    rw [if_neg hnoyr]
  have haccsub : ∀ c ∈ (csv.cols ++ ["År"]).filter
      (fun c => headSeg c == "accum"), c ∈ csv.cols := by
    intro c hcacc
    have h1 := List.mem_filter.1 hcacc
    rcases List.mem_append.1 h1.1 with h2 | h2
    · exact h2
    · exfalso
      simp only [List.mem_singleton] at h2
      subst h2
      exact absurd h1.2 (by decide)
  have hregnacc : "regine" ∉ (csv.cols ++ ["År"]).filter
      (fun c => headSeg c == "accum") := by
    intro hmem
    exact absurd (List.mem_filter.1 hmem).2 (by decide)
  have hyrnacc : "År" ∉ (csv.cols ++ ["År"]).filter
      (fun c => headSeg c == "accum") := by
    intro hmem
    exact absurd (List.mem_filter.1 hmem).2 (by decide)
  have happnd : (csv.cols ++ ["År"]).Nodup :=
    List.Nodup.append hnodup (by simp) (by
      intro a ha hb
      simp only [List.mem_singleton] at hb
      subst hb
      exact hnoyr ha)
  have hreqnd : (["regine", "År"] ++ (csv.cols ++ ["År"]).filter
      (fun c => headSeg c == "accum")).Nodup := by
    refine List.nodup_cons.2 ⟨?_, List.nodup_cons.2 ⟨hyrnacc, happnd.filter _⟩⟩
    intro hmem
    rcases List.mem_cons.1 hmem with h1 | h1
    · exact absurd h1 (by decide)
    · exact hregnacc h1
  have hcolacc : col ∈ (csv.cols ++ ["År"]).filter
      (fun c => headSeg c == "accum") :=
    List.mem_filter.2 ⟨List.mem_append_left _ hcol, by rw [haccum]; rfl⟩
  have hcolreq : col ∈ ["regine", "År"] ++ (csv.cols ++ ["År"]).filter
      (fun c => headSeg c == "accum") :=
    List.mem_cons.2 (Or.inr (List.mem_cons.2 (Or.inr hcolacc)))
  have hncreq : nc ∉ ["regine", "År"] ++ (csv.cols ++ ["År"]).filter
      (fun c => headSeg c == "accum") := by
    intro hmem
    rcases List.mem_cons.1 hmem with h1 | h1
    · exact hncr h1
    rcases List.mem_cons.1 h1 with h2 | h2
    · exact hncy h2
    · exact hfresh (haccsub nc h2)
  have hreqsub : ∀ c ∈ ["regine", "År"] ++ (csv.cols ++ ["År"]).filter
      (fun c => headSeg c == "accum"), c ∈ csv.cols ++ ["År"] := by
    intro c hc
    rcases List.mem_cons.1 hc with h1 | h1
    · subst h1
      exact List.mem_append_left _ hreg
    rcases List.mem_cons.1 h1 with h2 | h2
    · subst h2
      exact List.mem_append_right _ (by simp)
    · exact (List.mem_filter.1 h2).1
  have hmatchedsub : ∀ m ∈ t3Matched reg_id st_yr end_yr csv, m ∈ csv.rows :=
    fun m hm => List.mem_of_mem_filter hm
  obtain ⟨cols', G, hloop, hncc, hcolc, hGval⟩ :=
    kgLoop_main col nc hkg hnkg hncdef
      (["regine", "År"] ++ (csv.cols ++ ["År"]).filter
        (fun c => headSeg c == "accum"))
      ⟨["regine", "År"] ++ (csv.cols ++ ["År"]).filter
        (fun c => headSeg c == "accum"),
       ((t3Matched reg_id st_yr end_yr csv).map
         (fun m => updateRow m "År" (m "year"))).map
         (maskRow (["regine", "År"] ++ (csv.cols ++ ["År"]).filter
           (fun c => headSeg c == "accum")))⟩
      hreqnd hreqnd hcolreq (fun c hc => hc) hncreq
      (by
        intro c hc hcne hck
        rcases List.mem_cons.1 hc with h1 | h1
        · subst h1
          exact absurd hck (by decide)
        rcases List.mem_cons.1 h1 with h2 | h2
        · subst h2
          exact absurd hck (by decide)
        · exact hothers c (haccsub c h2) hcne hck)
      (by
        intro r' hr' c hc hck
        obtain ⟨r1, hr1, rfl⟩ := List.mem_map.1 hr'
        obtain ⟨m, hm, rfl⟩ := List.mem_map.1 hr1
        have hcnA : c ≠ "År" := by
          intro hcc
          subst hcc
          exact absurd hck (by decide)
        have hcincsv : c ∈ csv.cols := by
          rcases List.mem_cons.1 hc with h1 | h1
          · exfalso
            subst h1
            exact absurd hck (by decide)
          rcases List.mem_cons.1 h1 with h2 | h2
          · exact absurd h2 hcnA
          · exact haccsub c h2
        unfold maskRow
        rw [if_pos hc]
        unfold updateRow
        rw [if_neg hcnA]
        exact hkgnum m (hmatchedsub m hm) c hcincsv hck)
  refine ⟨(t3Matched reg_id st_yr end_yr csv).length == 0,
    ⟨cols', (((t3Matched reg_id st_yr end_yr csv).map
      (fun m => updateRow m "År" (m "year"))).map
      (maskRow (["regine", "År"] ++ (csv.cols ++ ["År"]).filter
        (fun c => headSeg c == "accum")))).map G⟩,
    fun m => G (maskRow (["regine", "År"] ++ (csv.cols ++ ["År"]).filter
      (fun c => headSeg c == "accum")) (updateRow m "År" (m "year"))),
    ?_, hncc, hcolc, ?_, ?_⟩
  · simp only [get_teotil3_results_for_regine]
    rw [if_pos ⟨hreg, hyear⟩]
    simp only [Bind.bind, Except.bind, hfema, hd1, selectCols]
    rw [if_pos hreqsub]
    simp only [hloop]
  · rw [List.map_map, List.map_map]
    rfl
  · intro m
    show G (maskRow (["regine", "År"] ++ (csv.cols ++ ["År"]).filter
      (fun c => headSeg c == "accum")) (updateRow m "År" (m "year"))) nc
      = pureDiv (m col)
    rw [hGval]
    have hcolnA : col ≠ "År" := by
      intro hcc
      rw [hcc] at hkg
      exact absurd hkg (by decide)
    unfold maskRow
    rw [if_pos hcolreq]
    unfold updateRow
    rw [if_neg hcolnA]

/-- The fixture CSV for the C4 witness: one row with `accum_x_kg = 2000`. -/
def t3WitnessCsv : Df :=
  ⟨["regine", "year", "accum_x_kg"],
   [fun c =>
      if c = "regine" then some (.str "001.")
      else if c = "year" then some (.num 2015)
      else if c = "accum_x_kg" then some (.num 2000) else none]⟩

/-- Witness for C4: the fixture CSV yields `accum_x_tonnes` (= 2000/1000) and
no `accum_x_kg` column. -/
theorem t3_kg_columns_become_tonnes_witness :
    ("regine" ∈ t3WitnessCsv.cols ∧ "year" ∈ t3WitnessCsv.cols ∧
     t3WitnessCsv.cols.Nodup ∧ "År" ∉ t3WitnessCsv.cols ∧
     "accum_x_kg" ∈ t3WitnessCsv.cols ∧ headSeg "accum_x_kg" = "accum" ∧
     pyEndsWith "accum_x_kg" "_kg" = true ∧
     "accum_x_tonnes" = pyReplace "accum_x_kg" "_kg" "_tonnes" ∧
     pyEndsWith "accum_x_tonnes" "_kg" = false ∧
     "accum_x_tonnes" ∉ t3WitnessCsv.cols ∧ "accum_x_tonnes" ≠ "regine" ∧
     "accum_x_tonnes" ≠ "År" ∧
     (∀ c ∈ t3WitnessCsv.cols, c ≠ "accum_x_kg" →
        pyEndsWith c "_kg" = true →
        pyReplace c "_kg" "_tonnes" ≠ "accum_x_tonnes" ∧
        pyReplace c "_kg" "_tonnes" ≠ "accum_x_kg") ∧
     (∀ r ∈ t3WitnessCsv.rows, isNumOrNone (r "year")) ∧
     (∀ r ∈ t3WitnessCsv.rows, ∀ c ∈ t3WitnessCsv.cols,
        pyEndsWith c "_kg" = true → isNumOrNone (r c))) ∧
    (∃ (warn : Bool) (out : Df) (H : Row → Row),
      get_teotil3_results_for_regine 2015 2015 "001." (some t3WitnessCsv) =
        .ok (warn, out) ∧
      "accum_x_tonnes" ∈ out.cols ∧ "accum_x_kg" ∉ out.cols ∧
      out.rows = (t3Matched "001." 2015 2015 t3WitnessCsv).map H ∧
      (∀ m : Row, H m "accum_x_tonnes" = pureDiv (m "accum_x_kg"))) :=
  ⟨⟨by decide, by decide, by decide, by decide, by decide, by decide,
    by decide, by decide, by decide, by decide, by decide, by decide,
    by decide, by decide, by decide⟩,
   t3_kg_columns_become_tonnes 2015 2015 "001." t3WitnessCsv
     "accum_x_kg" "accum_x_tonnes"
     (by decide) (by decide) (by decide) (by decide) (by decide) (by decide)
     (by decide) (by decide) (by decide) (by decide) (by decide) (by decide)
     (by decide) (by decide) (by decide)⟩

/-- Python `s.lower()`, computed on the character list. -/
def pyLower (s : String) : String := ⟨s.data.map Char.toLower⟩

/-- The fixed Quality Record column names in canonical order: the values of
`par_map` (utils.py:40-56).  The parameter objects are embedded keyed by
these renamed names directly — the rename is a bijection on the fixed key
set, so nothing is lost. -/
def qcols : List String :=
  ["category", "element", "parameter", "status", "eqr", "neqr", "value",
   "reference_value", "unit", "status_limits", "year_from", "year_to",
   "sample_count", "source", "data_quality"]

/-- A quality-element object of the vann-nett response: its list of parameter
objects, each a total map from Quality Record field name to optional value
(`none` models both JSON null and an absent key — `pd.json_normalize` renders
both as NaN).  The model assumes each parameter object carries the fixed key
set, matching the upstream schema. -/
structure VnElement where
  parameters : List Row

/-- A category object of the response: its quality elements. -/
structure VnCategory where
  qualityElements : List VnElement

/-- An HTTP response: status code and parsed JSON body. -/
structure VnResponse where
  status : Nat
  data : List VnCategory

/-- One parameter list's table (utils.py:63-67): an empty list yields no
table (`par_df.empty`); otherwise select and rename the fixed columns, then
drop every all-null column. -/
def vnParamDf (ps : List Row) : Option Df :=
  match ps with
  | [] => none
  | _ => some ⟨qcols.filter (fun c => ps.any (fun p => (p c).isSome)), ps⟩

/-- The parameter lists encountered by the nested iteration, in order. -/
def vnParamLists (data : List VnCategory) : List (List Row) :=
  (data.flatMap (fun cat => cat.qualityElements)).map (fun e => e.parameters)

/-- `df_list` (utils.py:58-67). -/
def vnDfList (data : List VnCategory) : List Df :=
  (vnParamLists data).filterMap vnParamDf

/-- All parameter objects anywhere in a response, in traversal order. -/
def vnAllParams (data : List VnCategory) : List Row :=
  (vnParamLists data).flatten

/-- utils.py:69-78: the "no data" sentinel (`None`) when no parameter tables
were collected; otherwise concatenate, re-add the Quality Record columns
missing from the concatenated table as all-null columns, prefix the
`waterbody_id` column and select the canonical column order. -/
def vnAssemble (wb_id : String) (data : List VnCategory) :
    Except PyErr (Option Df) :=
  match vnDfList data with
  | [] => .ok none
  | d :: rest => do
      let df ← concatDf (d :: rest)
      let df : Df := ⟨df.cols ++ qcols.filter (fun c => c ∉ df.cols), df.rows⟩
      let df := setCol df "waterbody_id" (fun _ => some (.str wb_id))
      let df ← selectCols ("waterbody_id" :: qcols) df
      .ok (some df)

/-- `valid_elements` (utils.py:21). -/
def valid_elements : List String := ["ecological", "rbsp", "swchemical"]

/-- `element_dict` (utils.py:27-31). -/
def element_dict : List (String × String) :=
  [("ecological", "ecological"), ("rbsp", "RBSP"), ("swchemical", "swChemical")]

/-- The endpoint URL (utils.py:34). -/
def vnUrl (wb_id token : String) : String :=
  "https://vann-nett.no/service/waterbodies/" ++ wb_id ++
    "/qualityElements/" ++ token

/-- `get_data_from_vannnett` (utils.py:9): validate the selector against
`valid_elements` (lower-cased), map it through `element_dict`, issue the one
GET (the `net` parameter supplies the response for a URL), raise for a
non-200 status, then flatten the nested JSON body.  The first component
lists the URLs fetched, making the network traffic observable. -/
def get_data_from_vannnett (wb_id quality_element : String)
    (net : String → VnResponse) : List String × Except PyErr (Option Df) :=
  if pyLower quality_element ∉ valid_elements then
    ([], .error .valueError)
  else
    match element_dict.lookup (pyLower quality_element) with
    | none => ([], .error .keyError)
    | some token =>
        let url := vnUrl wb_id token
        let resp := net url
        if resp.status ≠ 200 then ([url], .error (.httpError resp.status))
        else ([url], vnAssemble wb_id resp.data)

/-- C7: an invalid `quality_element` (lower-cased form outside
`valid_elements`) raises `ValueError` before any network call is made (the
fetched-URL list is empty, whatever the network would answer); a valid one
passes validation and issues exactly the single GET to the mapped URL. -/
theorem vn_invalid_element_no_network (wb_id quality_element : String)
    (net : String → VnResponse) :
    (pyLower quality_element ∉ valid_elements →
      get_data_from_vannnett wb_id quality_element net =
        ([], .error .valueError)) ∧
    (pyLower quality_element ∈ valid_elements →
      ∃ token, element_dict.lookup (pyLower quality_element) = some token ∧
        (get_data_from_vannnett wb_id quality_element net).1 =
          [vnUrl wb_id token]) := by
  constructor
  · intro h
    unfold get_data_from_vannnett
    rw [if_pos h]
  · intro h
    have hcases : pyLower quality_element = "ecological" ∨
        pyLower quality_element = "rbsp" ∨
        pyLower quality_element = "swchemical" := by
      simpa [valid_elements] using h
    have hlook : ∃ token,
        element_dict.lookup (pyLower quality_element) = some token := by
      rcases hcases with hq | hq | hq <;> rw [hq] <;> exact ⟨_, rfl⟩
    obtain ⟨token, htok⟩ := hlook
    refine ⟨token, htok, ?_⟩
    unfold get_data_from_vannnett
    rw [if_neg (not_not_intro h)]
    rw [htok]
    split
    · rename_i x heq
      cases heq
    · rename_i x t heq
      injection heq with heq
      subst heq
      show (if (net (vnUrl wb_id token)).status ≠ 200
        then ([vnUrl wb_id token],
          Except.error (ε := PyErr) (PyErr.httpError (net (vnUrl wb_id token)).status))
        else ([vnUrl wb_id token],
          vnAssemble wb_id (net (vnUrl wb_id token)).data)).1 =
        [vnUrl wb_id token]
      split <;> rfl

/-- Witness for C7, both branches: `"foo"` is rejected with no fetch;
`"Ecological"` (case-insensitive) is accepted and one GET is issued. -/
theorem vn_invalid_element_no_network_witness :
    (pyLower "foo" ∉ valid_elements ∧
      get_data_from_vannnett "0101000031-C" "foo"
        (fun _ => ⟨200, []⟩) = ([], .error .valueError)) ∧
    (pyLower "Ecological" ∈ valid_elements ∧
      ∃ token, element_dict.lookup (pyLower "Ecological") = some token ∧
        (get_data_from_vannnett "0101000031-C" "Ecological"
          (fun _ => ⟨200, []⟩)).1 = [vnUrl "0101000031-C" token]) :=
  ⟨⟨by decide,
    (vn_invalid_element_no_network "0101000031-C" "foo"
      (fun _ => ⟨200, []⟩)).1 (by decide)⟩,
   ⟨by decide,
    (vn_invalid_element_no_network "0101000031-C" "Ecological"
      (fun _ => ⟨200, []⟩)).2 (by decide)⟩⟩

theorem vnDfList_nil_iff (L : List (List Row)) :
    L.filterMap vnParamDf = [] ↔ L.flatten = [] := by
  induction L with
  | nil => simp
  | cons ps rest ih =>
    match ps with
    | [] =>
      simp only [List.filterMap_cons, vnParamDf, List.flatten_cons,
        List.nil_append]
      exact ih
    | p :: tl =>
      simp only [List.filterMap_cons, vnParamDf, List.flatten_cons]
      constructor
      · intro hc
        cases hc
      · intro hc
        cases hc

/-- C8: on a successful (status 200) response in which every parameter list
anywhere in the nested body is empty, the fetch returns the "no data"
sentinel `none` — not an empty table and not an error. -/
theorem vn_no_params_returns_sentinel (wb_id quality_element token : String)
    (net : String → VnResponse)
    (hval : pyLower quality_element ∈ valid_elements)
    (hlook : element_dict.lookup (pyLower quality_element) = some token)
    (hstatus : (net (vnUrl wb_id token)).status = 200)
    (hnone : vnAllParams (net (vnUrl wb_id token)).data = []) :
    (get_data_from_vannnett wb_id quality_element net).2 = .ok none := by
  have hdfs : vnDfList (net (vnUrl wb_id token)).data = [] :=
    (vnDfList_nil_iff _).2 hnone
  unfold get_data_from_vannnett
  rw [if_neg (not_not_intro hval), hlook]
  have hs : ¬ (net (vnUrl wb_id token)).status ≠ 200 := not_not_intro hstatus
  show (if (net (vnUrl wb_id token)).status ≠ 200
    then ([vnUrl wb_id token],
      Except.error (ε := PyErr) (PyErr.httpError (net (vnUrl wb_id token)).status))
    else ([vnUrl wb_id token],
      vnAssemble wb_id (net (vnUrl wb_id token)).data)).2 = .ok none
  rw [if_neg hs]
  show vnAssemble wb_id (net (vnUrl wb_id token)).data = .ok none
  unfold vnAssemble
  rw [hdfs]

/-- The C8 witness network: a well-formed response whose single category and
element hold no parameter objects at all. -/
def vnEmptyNet : String → VnResponse :=
  fun _ => ⟨200, [⟨[⟨[]⟩]⟩]⟩

/-- Witness for C8 on a response with a category and element but zero
parameter objects. -/
theorem vn_no_params_returns_sentinel_witness :
    (pyLower "ecological" ∈ valid_elements ∧
     element_dict.lookup (pyLower "ecological") = some "ecological" ∧
     (vnEmptyNet (vnUrl "0101000031-C" "ecological")).status = 200 ∧
     vnAllParams (vnEmptyNet (vnUrl "0101000031-C" "ecological")).data = []) ∧
    (get_data_from_vannnett "0101000031-C" "ecological" vnEmptyNet).2 =
      .ok none :=
  ⟨⟨by decide, by decide, rfl, rfl⟩,
   vn_no_params_returns_sentinel "0101000031-C" "ecological" "ecological"
     vnEmptyNet (by decide) (by decide) rfl rfl⟩

theorem vnParamDf_inv (ps : List Row) (df : Df) (h : vnParamDf ps = some df) :
    df.rows = ps ∧ ∀ c ∈ df.cols, c ∈ qcols := by
  match ps, h with
  | p :: tl, h =>
    injection h with h
    subst h
    exact ⟨rfl, fun c hc => List.mem_of_mem_filter
      (show c ∈ qcols.filter (fun c => (p :: tl).any fun p => (p c).isSome)
        from hc)⟩

theorem foldl_unionCols_sub (dfs : List Df)
    (hq : ∀ df ∈ dfs, ∀ c ∈ df.cols, c ∈ qcols) :
    ∀ acc, (∀ c ∈ acc, c ∈ qcols) →
      ∀ c ∈ dfs.foldl (fun acc df => acc ++ df.cols.filter (fun x => x ∉ acc)) acc,
        c ∈ qcols := by
  induction dfs with
  | nil =>
    intro acc hacc c hc
    exact hacc c hc
  | cons d rest ih =>
    intro acc hacc c hc
    refine ih (fun df hdf => hq df (by simp [hdf])) _ ?_ c hc
    intro x hx
    rcases List.mem_append.1 hx with h1 | h1
    · exact hacc x h1
    · exact hq d (by simp) x (List.mem_of_mem_filter h1)

theorem vn_rows_length (L : List (List Row)) :
    (((L.filterMap vnParamDf).map
      (fun df => df.rows.map (maskRow df.cols))).flatten).length
      = L.flatten.length := by
  induction L with
  | nil => rfl
  | cons ps rest ih =>
    match ps with
    | [] =>
      simp only [List.filterMap_cons, vnParamDf, List.flatten_cons,
        List.nil_append]
      exact ih
    | p :: tl =>
      simp only [List.filterMap_cons, vnParamDf, List.map_cons,
        List.flatten_cons, List.length_append, List.length_map, ih,
        List.length_cons]

theorem vn_rows_null (L : List (List Row)) (c : String)
    (h : ∀ p ∈ L.flatten, p c = none) :
    ∀ r ∈ ((L.filterMap vnParamDf).map
      (fun df => df.rows.map (maskRow df.cols))).flatten, r c = none := by
  intro r hr
  rw [List.mem_flatten] at hr
  obtain ⟨l, hl, hrl⟩ := hr
  rw [List.mem_map] at hl
  obtain ⟨df, hdf, rfl⟩ := hl
  rw [List.mem_filterMap] at hdf
  obtain ⟨ps, hps, hpd⟩ := hdf
  obtain ⟨hrows, _⟩ := vnParamDf_inv ps df hpd
  rw [List.mem_map] at hrl
  obtain ⟨p, hp, rfl⟩ := hrl
  have hpmem : p ∈ L.flatten := by
    rw [List.mem_flatten]
    exact ⟨ps, hps, by rw [← hrows]; exact hp⟩
  unfold maskRow
  split
  · exact h p hpmem
  · rfl

theorem vnAssemble_spec (wb_id : String) (data : List VnCategory)
    (hsome : vnAllParams data ≠ []) :
    ∃ df, vnAssemble wb_id data = .ok (some df) ∧
      df.cols = "waterbody_id" :: qcols ∧
      df.rows.length = (vnAllParams data).length ∧
      (∀ r ∈ df.rows, r "waterbody_id" = some (.str wb_id)) ∧
      (∀ c ∈ qcols, (∀ p ∈ vnAllParams data, p c = none) →
        ∀ r ∈ df.rows, r c = none) := by
  have hdfsne : vnDfList data ≠ [] := fun hc => hsome ((vnDfList_nil_iff _).1 hc)
  obtain ⟨d, rest, hdfs⟩ := List.exists_cons_of_ne_nil hdfsne
  have hq : ∀ df ∈ d :: rest, ∀ c ∈ df.cols, c ∈ qcols := by
    rw [← hdfs]
    intro df hdf
    rw [vnDfList, List.mem_filterMap] at hdf
    obtain ⟨ps, _, hpd⟩ := hdf
    exact (vnParamDf_inv ps df hpd).2
  have hUsub : ∀ c ∈ (d :: rest).foldl
      (fun acc df => acc ++ df.cols.filter (fun x => x ∉ acc)) [], c ∈ qcols :=
    foldl_unionCols_sub _ hq [] (by simp)
  have hwbq : "waterbody_id" ∉ qcols := by decide
  have hwb1 : "waterbody_id" ∉
      ((d :: rest).foldl
        (fun acc df => acc ++ df.cols.filter (fun x => x ∉ acc)) []) ++
      qcols.filter (fun c => c ∉
        (d :: rest).foldl
          (fun acc df => acc ++ df.cols.filter (fun x => x ∉ acc)) []) := by
    intro hmem
    rcases List.mem_append.1 hmem with h1 | h1
    · exact hwbq (hUsub _ h1)
    · exact hwbq (List.mem_of_mem_filter h1)
  have hreqmem : ∀ c ∈ "waterbody_id" :: qcols, c ∈
      (((d :: rest).foldl
        (fun acc df => acc ++ df.cols.filter (fun x => x ∉ acc)) []) ++
      qcols.filter (fun c => c ∉
        (d :: rest).foldl
          (fun acc df => acc ++ df.cols.filter (fun x => x ∉ acc)) [])) ++
      ["waterbody_id"] := by
    intro c hc
    rcases List.mem_cons.1 hc with rfl | hc
    · exact List.mem_append_right _ (by simp)
    · refine List.mem_append_left _ ?_
      by_cases hcu : c ∈ (d :: rest).foldl
          (fun acc df => acc ++ df.cols.filter (fun x => x ∉ acc)) []
      · exact List.mem_append_left _ hcu
      · exact List.mem_append_right _ (List.mem_filter.2 ⟨hc, by simpa using hcu⟩)
  refine ⟨⟨"waterbody_id" :: qcols,
    (((d :: rest).map (fun df => df.rows.map (maskRow df.cols))).flatten.map
      (fun r => updateRow r "waterbody_id" (some (.str wb_id)))).map
      (maskRow ("waterbody_id" :: qcols))⟩, ?_, rfl, ?_, ?_, ?_⟩
  · unfold vnAssemble
    rw [hdfs]
    show (do
      let df ← concatDf (d :: rest)
      let df : Df := ⟨df.cols ++ qcols.filter (fun c => c ∉ df.cols), df.rows⟩
      let df := setCol df "waterbody_id" (fun _ => some (.str wb_id))
      let df ← selectCols ("waterbody_id" :: qcols) df
      Except.ok (some df)) = _
    simp only [concatDf, Bind.bind, Except.bind, setCol, selectCols]
    rw [if_neg hwb1, if_pos hreqmem]
  · simp only [List.length_map]
    rw [show (d :: rest) = vnDfList data from hdfs.symm]
    exact vn_rows_length (vnParamLists data)
  · intro r hr
    rw [List.mem_map] at hr
    obtain ⟨r1, hr1, rfl⟩ := hr
    rw [List.mem_map] at hr1
    obtain ⟨r0, hr0, rfl⟩ := hr1
    unfold maskRow
    rw [if_pos (by simp)]
    unfold updateRow
    rw [if_pos rfl]
  · intro c hcq hnull r hr
    have hcwb : c ≠ "waterbody_id" := by
      intro hcc
      subst hcc
      exact hwbq hcq
    rw [List.mem_map] at hr
    obtain ⟨r1, hr1, rfl⟩ := hr
    rw [List.mem_map] at hr1
    obtain ⟨r0, hr0, rfl⟩ := hr1
    unfold maskRow
    rw [if_pos (List.mem_cons.2 (Or.inr hcq))]
    unfold updateRow
    rw [if_neg hcwb]
    refine vn_rows_null (vnParamLists data) c hnull r0 ?_
    rw [show (vnParamLists data).filterMap vnParamDf = d :: rest from hdfs]
    exact hr0

/-- C2: on a successful fetch whose response holds at least one parameter
object, the returned table's columns are exactly `waterbody_id` followed by
the 15 Quality Record fields in canonical order; there is one row per
parameter object, every row carries the input `waterbody_id`, and every
field that is null/absent throughout the source data is present as an
all-null column. -/
theorem vn_fetch_fixed_schema (wb_id quality_element token : String)
    (net : String → VnResponse)
    (hval : pyLower quality_element ∈ valid_elements)
    (hlook : element_dict.lookup (pyLower quality_element) = some token)
    (hstatus : (net (vnUrl wb_id token)).status = 200)
    (hsome : vnAllParams (net (vnUrl wb_id token)).data ≠ []) :
    ∃ df, (get_data_from_vannnett wb_id quality_element net).2 =
        .ok (some df) ∧
      df.cols = "waterbody_id" :: qcols ∧
      df.rows.length = (vnAllParams (net (vnUrl wb_id token)).data).length ∧
      (∀ r ∈ df.rows, r "waterbody_id" = some (.str wb_id)) ∧
      (∀ c ∈ qcols,
        (∀ p ∈ vnAllParams (net (vnUrl wb_id token)).data, p c = none) →
        ∀ r ∈ df.rows, r c = none) := by
  obtain ⟨df, hassemble, hcol, hlen, hwb, hnull⟩ :=
    vnAssemble_spec wb_id (net (vnUrl wb_id token)).data hsome
  refine ⟨df, ?_, hcol, hlen, hwb, hnull⟩
  unfold get_data_from_vannnett
  rw [if_neg (not_not_intro hval), hlook]
  have hs : ¬ (net (vnUrl wb_id token)).status ≠ 200 := not_not_intro hstatus
  show (if (net (vnUrl wb_id token)).status ≠ 200
    then ([vnUrl wb_id token],
      Except.error (ε := PyErr) (PyErr.httpError (net (vnUrl wb_id token)).status))
    else ([vnUrl wb_id token],
      vnAssemble wb_id (net (vnUrl wb_id token)).data)).2 = .ok (some df)
  rw [if_neg hs]
  exact hassemble

/-- A parameter object with only `status` and `eqr` present, for the C2
witness. -/
def vnWitnessParam : Row :=
  fun c =>
    if c = "status" then some (.str "God")
    else if c = "eqr" then some (.num 1) else none

/-- The C2 witness network: one category, one element, one parameter. -/
def vnWitnessNet : String → VnResponse :=
  fun _ => ⟨200, [⟨[⟨[vnWitnessParam]⟩]⟩]⟩

/-- Witness for C2 on the single-parameter response with partial fields. -/
theorem vn_fetch_fixed_schema_witness :
    (pyLower "ecological" ∈ valid_elements ∧
     element_dict.lookup (pyLower "ecological") = some "ecological" ∧
     (vnWitnessNet (vnUrl "0101000031-C" "ecological")).status = 200 ∧
     vnAllParams (vnWitnessNet (vnUrl "0101000031-C" "ecological")).data ≠ []) ∧
    (∃ df, (get_data_from_vannnett "0101000031-C" "ecological"
        vnWitnessNet).2 = .ok (some df) ∧
      df.cols = "waterbody_id" :: qcols ∧
      df.rows.length =
        (vnAllParams (vnWitnessNet
          (vnUrl "0101000031-C" "ecological")).data).length ∧
      (∀ r ∈ df.rows, r "waterbody_id" = some (.str "0101000031-C")) ∧
      (∀ c ∈ qcols,
        (∀ p ∈ vnAllParams (vnWitnessNet
          (vnUrl "0101000031-C" "ecological")).data, p c = none) →
        ∀ r ∈ df.rows, r c = none)) :=
  ⟨⟨by decide, by decide, rfl, fun h => List.noConfusion h⟩,
   vn_fetch_fixed_schema "0101000031-C" "ecological" "ecological" vnWitnessNet
     (by decide) (by decide) rfl (fun h => List.noConfusion h)⟩
